import Mathlib

/-!
Verification of the Evarra backend service's validation, record-service and
cache logic, as a shallow embedding of the JavaScript/TypeScript source.

Conventions of the embedding:
* JavaScript strings are Lean `String`s; `trim`, `toLowerCase`, `toUpperCase`
  are modelled per character (`Char.toLower`/`Char.toUpper` are ASCII-only,
  matching the ASCII-only alphabets of every address rule in the source).
* The anchored regular expressions of the source are modelled as explicit
  decidable predicates over the string's character list.
* A JS function that can raise maps to `Except`; `Option` models
  `null`/`undefined` results.
* MongoDB collections are association lists held in an explicit state record;
  `findOne`/`insertOne`/`updateOne $set`/`deleteMany` are list operations.
* Timestamps (`new Date()`) are `Nat` parameters supplied by the caller.
-/

/-! ## JS string primitives -/

/-- Character code as a natural number. -/
def charCode (c : Char) : Nat := c.toNat

/-- The WhiteSpace and LineTerminator characters recognised by JS `trim()`
(ECMA-262): TAB, LF, VT, FF, CR, SP, NBSP, OGHAM SP, the U+2000 to U+200A
spaces, LS, PS, NNBSP, MMSP, IDEOGRAPHIC SP and the BOM. -/
def isJsWhitespaceChar (c : Char) : Bool :=
  charCode c = 9 || charCode c = 10 || charCode c = 11 || charCode c = 12 ||
  charCode c = 13 || charCode c = 32 || charCode c = 160 || charCode c = 5760 ||
  (8192 ≤ charCode c && charCode c ≤ 8202) || charCode c = 8232 ||
  charCode c = 8233 || charCode c = 8239 || charCode c = 8287 ||
  charCode c = 12288 || charCode c = 65279

/-- JS `String.prototype.trim`. -/
def jsTrim (s : String) : String :=
  ⟨((s.data.dropWhile isJsWhitespaceChar).reverse.dropWhile isJsWhitespaceChar).reverse⟩

/-- JS `String.prototype.toLowerCase` (ASCII). -/
def jsToLower (s : String) : String := ⟨s.data.map Char.toLower⟩

/-- JS `String.prototype.toUpperCase` (ASCII). -/
def jsToUpper (s : String) : String := ⟨s.data.map Char.toUpper⟩

/-- `ObjectId.isValid`: a 12-character string, or a 24-character hex string. -/
def isHexDigitChar (c : Char) : Bool :=
  (48 ≤ charCode c && charCode c ≤ 57) ||      -- 0-9
  (97 ≤ charCode c && charCode c ≤ 102) ||     -- a-f
  (65 ≤ charCode c && charCode c ≤ 70)         -- A-F

def isValidObjectIdString (s : String) : Bool :=
  s.data.length = 12 || (s.data.length = 24 && s.data.all isHexDigitChar)

/-! ## Address shape rules (the anchored regexes of the source) -/

/-- The base58 alphabet `[1-9A-HJ-NP-Za-km-z]` (digits without 0, upper case
without I and O, lower case without l). -/
def isBase58Char (c : Char) : Bool :=
  (49 ≤ charCode c && charCode c ≤ 57) ||      -- 1-9
  (65 ≤ charCode c && charCode c ≤ 72) ||      -- A-H
  (74 ≤ charCode c && charCode c ≤ 78) ||      -- J-N
  (80 ≤ charCode c && charCode c ≤ 90) ||      -- P-Z
  (97 ≤ charCode c && charCode c ≤ 107) ||     -- a-k
  (109 ≤ charCode c && charCode c ≤ 122)       -- m-z

/-- The bech32 payload alphabet `[a-z0-9]`. -/
def isBech32DataChar (c : Char) : Bool :=
  (97 ≤ charCode c && charCode c ≤ 122) || (48 ≤ charCode c && charCode c ≤ 57)

/-- `^0x[a-fA-F0-9]{n}$`. -/
def matches0xHex (n : Nat) (s : String) : Bool :=
  match s.data with
  | c0 :: c1 :: rest =>
      c0 = '0' && c1 = 'x' && rest.length = n && rest.all isHexDigitChar
  | _ => false

/-- `^0x[a-fA-F0-9]{40}$` (ethereum-family addresses). -/
def matchesEthereumAddress (s : String) : Bool := matches0xHex 40 s

/-- `^0x[a-fA-F0-9]{64}$` (sui and aptos addresses). -/
def matches0x64Hex (s : String) : Bool := matches0xHex 64 s

/-- `^[1-9A-HJ-NP-Za-km-z]{32,44}$` (solana addresses). -/
def matchesSolanaAddress (s : String) : Bool :=
  32 ≤ s.data.length && s.data.length ≤ 44 && s.data.all isBase58Char

/-- `^[13][a-km-zA-HJ-NP-Z1-9]{25,34}$` (legacy bitcoin addresses). -/
def matchesBitcoinLegacy (s : String) : Bool :=
  match s.data with
  | c :: rest =>
      (c = '1' || c = '3') && (25 ≤ rest.length && rest.length ≤ 34) &&
      rest.all isBase58Char
  | [] => false

/-- `^bc1[a-z0-9]{39,59}$` (bech32 bitcoin addresses). -/
def matchesBitcoinBech32 (s : String) : Bool :=
  match s.data with
  | c0 :: c1 :: c2 :: rest =>
      c0 = 'b' && c1 = 'c' && c2 = '1' &&
      (39 ≤ rest.length && rest.length ≤ 59) && rest.all isBech32DataChar
  | _ => false

/-! ## The standalone shared validators (src/utils/validation.ts) -/

namespace sharedValidators

/-- `ethereumAddress` of `sharedValidators`. -/
def ethereumAddress (address : String) : Option String :=
  if matchesEthereumAddress address then none else some "Invalid Ethereum address"

/-- `suiAddress` of `sharedValidators`. -/
def suiAddress (address : String) : Option String :=
  if matches0x64Hex address then none else some "Invalid Sui address"

/-- `bitcoinAddress` of `sharedValidators` (legacy shape only). -/
def bitcoinAddress (address : String) : Option String :=
  if matchesBitcoinLegacy address then none else some "Invalid Bitcoin address"

/-- `solanaAddress` of `sharedValidators`. -/
def solanaAddress (address : String) : Option String :=
  if matchesSolanaAddress address then none else some "Invalid Solana address"

/-- `aptosAddress` of `sharedValidators`. -/
def aptosAddress (address : String) : Option String :=
  if matches0x64Hex address then none else some "Invalid Aptos address"

end sharedValidators

namespace SharedValidation

/-- `chain.trim().toUpperCase()` of `validateAddressByChain` in validation.ts. -/
def normalizeChain (chain : String) : String := jsToUpper (jsTrim chain)

/-- `validateAddressByChain` of src/utils/validation.ts: a switch on the
normalized chain, with the alias cases sharing the canonical chain's branch. -/
def validateAddressByChain (address chain : String) : Option String :=
  if normalizeChain chain = "ETHEREUM" ∨ normalizeChain chain = "ETH" ∨
     normalizeChain chain = "POLYGON" ∨ normalizeChain chain = "MATIC" ∨
     normalizeChain chain = "ARBITRUM" ∨ normalizeChain chain = "OPTIMISM" ∨
     normalizeChain chain = "BASE" then
    sharedValidators.ethereumAddress address
  else if normalizeChain chain = "BITCOIN" ∨ normalizeChain chain = "BTC" then
    sharedValidators.bitcoinAddress address
  else if normalizeChain chain = "SOLANA" ∨ normalizeChain chain = "SOL" then
    sharedValidators.solanaAddress address
  else if normalizeChain chain = "SUI" then
    sharedValidators.suiAddress address
  else if normalizeChain chain = "APTOS" then
    sharedValidators.aptosAddress address
  else
    some "Unsupported blockchain network"

end SharedValidation

namespace WalletService

/-- `validateAddressByChain` of src/services/walletService.js: a switch on
`chain.toLowerCase()` (no trim, no aliases); bitcoin additionally accepts
bech32 addresses here. -/
def validateAddressByChain (address chain : String) : Option String :=
  if jsToLower chain = "sui" then
    if matches0x64Hex address then none
    else some "Invalid SUI address format (should be 0x followed by 64 hex characters)"
  else if jsToLower chain = "ethereum" ∨ jsToLower chain = "polygon" ∨
          jsToLower chain = "arbitrum" ∨ jsToLower chain = "optimism" ∨
          jsToLower chain = "base" then
    if matchesEthereumAddress address then none
    else some "Invalid Ethereum address format (should be 0x followed by 40 hex characters)"
  else if jsToLower chain = "bitcoin" then
    if matchesBitcoinLegacy address || matchesBitcoinBech32 address then none
    else some "Invalid Bitcoin address format"
  else if jsToLower chain = "solana" then
    if matchesSolanaAddress address then none
    else some "Invalid Solana address format"
  else if jsToLower chain = "aptos" then
    if matches0x64Hex address then none
    else some "Invalid Aptos address format (should be 0x followed by 64 hex characters)"
  else
    some "Unsupported blockchain chain"

end WalletService

/-! ## Chain-shape tables (the spec's table in section 4.1, used to state
the claims about the two validators) -/

/-- The shape rule the shared validator applies for a normalized
(upper-cased) chain identifier, `none` when the chain is unsupported. -/
def sharedChainShape (n : String) : Option (String → Bool) :=
  if n = "ETHEREUM" ∨ n = "ETH" ∨ n = "POLYGON" ∨ n = "MATIC" ∨
     n = "ARBITRUM" ∨ n = "OPTIMISM" ∨ n = "BASE" then
    some matchesEthereumAddress
  else if n = "BITCOIN" ∨ n = "BTC" then some matchesBitcoinLegacy
  else if n = "SOLANA" ∨ n = "SOL" then some matchesSolanaAddress
  else if n = "SUI" then some matches0x64Hex
  else if n = "APTOS" then some matches0x64Hex
  else none

/-- The shape rule the wallet-service validator applies for a lower-cased
chain identifier, `none` when the chain is unsupported. -/
def walletChainShape (n : String) : Option (String → Bool) :=
  if n = "sui" then some matches0x64Hex
  else if n = "ethereum" ∨ n = "polygon" ∨ n = "arbitrum" ∨
          n = "optimism" ∨ n = "base" then some matchesEthereumAddress
  else if n = "bitcoin" then
    some (fun a => matchesBitcoinLegacy a || matchesBitcoinBech32 a)
  else if n = "solana" then some matchesSolanaAddress
  else if n = "aptos" then some matches0x64Hex
  else none

/-! ## Wallet service (src/services/walletService.js) -/

namespace WalletService

/-- The fields of a wallet creation payload. `none` models an absent or
`undefined` field of the request body. -/
structure WalletPayload where
  user_id : String
  label : Option String
  address : Option String
  chain : Option String
deriving Repr, DecidableEq

/-- The `supportedChains` array of the wallet service. -/
def supportedChains : List String :=
  ["ethereum", "bitcoin", "solana", "sui", "aptos", "polygon", "arbitrum", "optimism", "base"]

/-- The error pushed when the chain is not in `supportedChains`
(`Unsupported chain. Supported chains: ${supportedChains.join(', ')}`). -/
def unsupportedChainsError : String :=
  "Unsupported chain. Supported chains: ethereum, bitcoin, solana, sui, aptos, polygon, arbitrum, optimism, base"

/-- `validateWalletData`. The `Except.error` case models the uncaught
`TypeError` raised by `walletData.chain.toLowerCase()` when `chain` is
absent; all other paths return the collected error list. Note that a JS
string is falsy exactly when it is empty, so `!walletData.label ||
walletData.label.trim().length === 0` holds exactly when the trimmed label
is empty. -/
def validateWalletData (p : WalletPayload) : Except Unit (List String) :=
  let labelErrs := match p.label with
    | none => ["Wallet label is required"]
    | some l => if jsTrim l = "" then ["Wallet label is required"] else []
  let addressErrs := match p.address with
    | none => ["Wallet address is required"]
    | some a => if jsTrim a = "" then ["Wallet address is required"] else []
  let chainErrs := match p.chain with
    | none => ["Blockchain chain is required"]
    | some c => if jsTrim c = "" then ["Blockchain chain is required"] else []
  match p.chain with
  | none => Except.error ()    -- walletData.chain.toLowerCase() raises a TypeError
  | some c =>
    let chainSupportErrs :=
      if supportedChains.contains (jsToLower c) then [] else [unsupportedChainsError]
    -- if (walletData.address && walletData.chain): both truthy, i.e. nonempty
    let addressFormatErrs := match p.address with
      | some a =>
          if a ≠ "" ∧ c ≠ "" then
            match validateAddressByChain a c with
            | some e => [e]
            | none => []
          else []
      | none => []
    Except.ok (labelErrs ++ addressErrs ++ chainErrs ++ chainSupportErrs ++ addressFormatErrs)

/-- A document of the `wallets` collection. `createWallet` writes the owning
user under the key `userId` and never writes a `user_id` key; the `user_id`
field below records that absence so that the update-path duplicate query
(which filters on `user_id`) can be modelled faithfully. `updateWallet`
writes its timestamp under `updated_at`, a different key than the
`updatedAt` set at creation. -/
structure WalletDoc where
  id : String
  userId : String
  user_id : Option String
  address : String
  label : String
  chain : String
  createdAt : Nat
  updatedAt : Nat
  updated_at : Option Nat
deriving Repr, DecidableEq

/-- The storage state the wallet service operates on: the ids of the
existing `users` documents and the `wallets` collection. -/
structure WalletState where
  users : List String
  wallets : List WalletDoc
deriving Repr, DecidableEq

/-- The body of `createWallet` after `validateWalletData` returned its
error list: reject on a nonempty list, check the user exists, check the
per-user duplicate (on the lower-cased address and chain), then insert the
normalized document. `now` is the creation date, `newId` the id the store
assigns. -/
def createWalletChecked (st : WalletState) (p : WalletPayload) (now : Nat) (newId : String)
    (errs : List String) : Except String (WalletState × WalletDoc) :=
  if errs ≠ [] then
      Except.error ("Validation failed: " ++ String.intercalate ", " errs)
    else if ¬ isValidObjectIdString p.user_id then
      Except.error "BSONError: invalid ObjectId"   -- new ObjectId(walletData.user_id) raises
    else if ¬ st.users.contains p.user_id then
      Except.error "User not found"
    else if st.wallets.any (fun w =>
        w.userId = p.user_id ∧ w.address = jsToLower (p.address.getD "") ∧
        w.chain = jsToLower (p.chain.getD "")) then
      Except.error "Wallet with this address and chain already exists for this user"
    else
      let newWallet : WalletDoc :=
        { id := newId
          userId := p.user_id
          user_id := none
          address := jsTrim (jsToLower (p.address.getD ""))
          label := jsTrim (p.label.getD "")
          chain := jsTrim (jsToLower (p.chain.getD ""))
          createdAt := now
          updatedAt := now
          updated_at := none }
      Except.ok ({ st with wallets := newWallet :: st.wallets }, newWallet)

/-- `createWallet` raises the `validateWalletData` TypeError (re-thrown by
the catch block) and otherwise continues in `createWalletChecked`. -/
def createWallet (st : WalletState) (p : WalletPayload) (now : Nat) (newId : String) :
    Except String (WalletState × WalletDoc) :=
  match validateWalletData p with
  | Except.error _ => Except.error "TypeError: chain is undefined"
  | Except.ok errs => createWalletChecked st p now newId errs

/-- `collection.findOne({_id: new ObjectId(walletId)})`. -/
def findWalletDoc (st : WalletState) (walletId : String) : Option WalletDoc :=
  st.wallets.find? (fun w => w.id = walletId)

/-- The label block of `updateWallet`: trim, reject when empty. -/
def labelStep (l? : Option String) : Except String (Option String) :=
  match l? with
  | none => Except.ok none
  | some l =>
      if jsTrim l = "" then Except.error "Wallet label cannot be empty"
      else Except.ok (some (jsTrim l))

/-- The address block of `updateWallet`: lower-case and trim, reject when
empty, then validate against the wallet's EXISTING chain (source line 263)
whether or not the patch also carries a chain. -/
def addressStep (a? : Option String) (existingChain : String) : Except String (Option String) :=
  match a? with
  | none => Except.ok none
  | some a =>
      if jsTrim (jsToLower a) = "" then Except.error "Wallet address cannot be empty"
      else match validateAddressByChain (jsTrim (jsToLower a)) existingChain with
        | some e => Except.error e
        | none => Except.ok (some (jsTrim (jsToLower a)))

/-- The chain block of `updateWallet`: lower-case and trim, require a
supported chain, then validate the wallet's EXISTING address (source line
276) against the new chain, whether or not the patch also carries an
address. -/
def chainStep (c? : Option String) (existingAddress : String) : Except String (Option String) :=
  match c? with
  | none => Except.ok none
  | some c =>
      if ¬ supportedChains.contains (jsTrim (jsToLower c)) then
        Except.error unsupportedChainsError
      else match validateAddressByChain existingAddress (jsTrim (jsToLower c)) with
        | some e => Except.error e
        | none => Except.ok (some (jsTrim (jsToLower c)))

/-- An update patch over `{label, address, chain}`; `none` is an absent field. -/
structure WalletUpdates where
  label : Option String
  address : Option String
  chain : Option String
deriving Repr, DecidableEq

/-- Whether a MongoDB equality filter whose value serialized from
JavaScript matches a document field. An `undefined` query value (`none`) is
serialized as null by the driver (ignoreUndefined defaults to false) and
null matches exactly the documents in which the field is missing (or
null, which this code never stores). -/
def nullQueryMatches (queryVal docVal : Option String) : Bool :=
  match queryVal, docVal with
  | none, none => true
  | none, some _ => false
  | some q, some d => q = d
  | some _, none => false

/-- The duplicate query of `updateWallet` (source lines 283-297): runs only
when the patch carries an address or chain, compares the lower-cased (NOT
trimmed) patch values against the stored documents, filters on the
`user_id` field (which `createWallet` never writes, and which is also
undefined on `existingWallet` — see `nullQueryMatches`), and excludes the
record's own id. At this point a present address or chain is necessarily a
nonempty string (empty ones were rejected by the earlier blocks), so
JS truthiness coincides with presence. -/
def updateDupCheck (st : WalletState) (walletId : String) (ex : WalletDoc)
    (u : WalletUpdates) : Bool :=
  (u.address.isSome || u.chain.isSome) &&
  st.wallets.any (fun w =>
    nullQueryMatches ex.user_id w.user_id &&
    w.address = (match u.address with | some a => jsToLower a | none => ex.address) &&
    w.chain = (match u.chain with | some c => jsToLower c | none => ex.chain) &&
    w.id ≠ walletId)

/-- The tail of `updateWallet` once every field block passed: the duplicate
re-check, then the `$set` write. -/
def updateWalletChecked (st : WalletState) (walletId : String) (u : WalletUpdates) (now : Nat)
    (ex : WalletDoc) (newLabel? newAddress? newChain? : Option String) :
    Except String (WalletState × WalletDoc) :=
  if updateDupCheck st walletId ex u then
    Except.error "Wallet with this address and chain already exists for this user"
  else
    let updatedDoc : WalletDoc :=
      { ex with
        label := newLabel?.getD ex.label
        address := newAddress?.getD ex.address
        chain := newChain?.getD ex.chain
        updated_at := some now }
    Except.ok
      ({ st with wallets :=
          st.wallets.map (fun w => if w.id = walletId then updatedDoc else w) },
       updatedDoc)

/-- The body of `updateWallet` once the wallet was found: the three field
blocks in source order, then `updateWalletChecked`. -/
def updateWalletFound (st : WalletState) (walletId : String) (u : WalletUpdates) (now : Nat)
    (ex : WalletDoc) : Except String (WalletState × WalletDoc) :=
  match labelStep u.label with
  | Except.error e => Except.error e
  | Except.ok newLabel? =>
    match addressStep u.address ex.chain with
    | Except.error e => Except.error e
    | Except.ok newAddress? =>
      match chainStep u.chain ex.address with
      | Except.error e => Except.error e
      | Except.ok newChain? =>
        updateWalletChecked st walletId u now ex newLabel? newAddress? newChain?

/-- `updateWallet`: id-shape check, existence, the three field blocks, the
duplicate re-check, and the `$set` write. Every failure happens before the
write. -/
def updateWallet (st : WalletState) (walletId : String) (u : WalletUpdates) (now : Nat) :
    Except String (WalletState × WalletDoc) :=
  if ¬ isValidObjectIdString walletId then Except.error "Invalid wallet ID format"
  else match findWalletDoc st walletId with
  | none => Except.error "Wallet not found"
  | some ex => updateWalletFound st walletId u now ex

end WalletService

/-! ## Goal service (src/services/goalService.js) -/

namespace GoalService

/-- A JavaScript/BSON value as stored in a goal document or carried by a
patch. `jsNull` models both JSON null and an absent payload field (both are
falsy and neither survives JSON serialization as `undefined`); `oid` is a
BSON ObjectId built from a hex string; `time` a BSON date; `blob` any other
value (arrays, nested objects), opaque to all the logic modelled here. -/
inductive GVal where
  | str (s : String)
  | num (q : ℚ)
  | boolean (b : Bool)
  | jsNull
  | oid (s : String)
  | time (t : Nat)
  | blob (tag : Nat)
deriving Repr, DecidableEq

/-- JS truthiness of a `GVal` (NaN is not modelled). -/
def GVal.truthy : GVal → Bool
  | .str s => s ≠ ""
  | .num q => q ≠ 0
  | .boolean b => b
  | .jsNull => false
  | .oid _ => true
  | .time _ => true
  | .blob _ => true

/-- `typeof v === 'number'`. -/
def GVal.isNum : GVal → Bool
  | .num _ => true
  | _ => false

/-- `ObjectId.isValid(v)` on a payload value: string ids are checked by
shape; an already-constructed ObjectId is valid; other values are not
(numeric inputs, which ObjectId.isValid also accepts, never reach these
call sites from a JSON body's string fields). -/
def objectIdValidGVal : GVal → Bool
  | .str s => isValidObjectIdString s
  | .oid _ => true
  | _ => false

/-- The hex string carried by an id-like value (`new ObjectId(v)`). -/
def GVal.idString : GVal → String
  | .str s => s
  | .oid s => s
  | _ => ""

/-- JS `a > b` restricted to numbers: comparisons involving a non-number
operand are modelled as false (in JS a NaN comparison is false; the
string-coercion cases never matter here because every call site either
guards both operands with typeof checks or compares against a
number-valued stored field). -/
def jsGtVal : GVal → GVal → Bool
  | .num a, .num b => a > b
  | _, _ => false

/-- JS `v || d`. -/
def jsOr (v d : GVal) : GVal := if v.truthy then v else d

/-- `goal_type` membership in `['regular', 'parent', 'subgoal']`
(strict equality, so only those exact strings pass). -/
def includesGoalType (v : GVal) : Bool :=
  v = .str "regular" || v = .str "parent" || v = .str "subgoal"

/-- A goal document: the association list of its fields. -/
abbrev GoalDoc := List (String × GVal)

/-- Field lookup in a document (first occurrence). -/
def getField : GoalDoc → String → Option GVal
  | [], _ => none
  | kv :: rest, k => if kv.1 = k then some kv.2 else getField rest k

/-- One `$set` assignment: replace the field in place, or append it. -/
def setField : GoalDoc → String → GVal → GoalDoc
  | [], k, v => [(k, v)]
  | kv :: rest, k, v => if kv.1 = k then (k, v) :: rest else kv :: setField rest k v

/-- `updateOne(filter, { $set: patch })` on a single document. -/
def setFields (doc : GoalDoc) (patch : List (String × GVal)) : GoalDoc :=
  patch.foldl (fun d kv => setField d kv.1 kv.2) doc

/-- Lookup of a key in a patch object (same first-occurrence semantics). -/
def patchField (patch : List (String × GVal)) (k : String) : Option GVal :=
  getField patch k

/-- The storage state of the goal service: existing user ids and the
`goals` collection as (id, document) pairs. -/
structure GoalState where
  users : List String
  goals : List (String × GoalDoc)
deriving Repr, DecidableEq

/-- `collection.findOne({_id: new ObjectId(goalId)})`. -/
def findGoal (st : GoalState) (goalId : String) : Option GoalDoc :=
  (st.goals.find? (fun g => g.1 = goalId)).map (·.2)

/-- A goal creation payload. Fields the caller may omit default to
`GVal.jsNull` (see `GVal`). -/
structure GoalPayload where
  user_id : String
  name : GVal
  description : GVal := GVal.jsNull
  status : GVal := GVal.jsNull
  progress : GVal := GVal.jsNull
  coin : GVal
  coin_symbol : GVal
  current_amount : GVal
  target_amount : GVal
  target_date : GVal := GVal.jsNull
  wallet_id : GVal := GVal.jsNull
  wallet_address : GVal := GVal.jsNull
  wallet_chain : GVal := GVal.jsNull
  goal_type : GVal
  parent_goal_id : GVal := GVal.jsNull
  is_aggregate : GVal := GVal.jsNull
  milestones : GVal := GVal.jsNull
  notes : GVal := GVal.jsNull
deriving Repr, DecidableEq

/-- `!v || v.trim().length === 0`, pushing `msg`: falsy values and trim-empty
strings fail with `msg`; a truthy non-string raises (`.trim` is not a
function), modelled by `Except.error`. -/
def requiredTrimmedCheck (v : GVal) (msg : String) : Except Unit (List String) :=
  if ¬ v.truthy then Except.ok [msg]
  else match v with
    | .str s => if jsTrim s = "" then Except.ok [msg] else Except.ok []
    | _ => Except.error ()

/-- `validateGoalData`: collects all field errors; `Except.error` models a
TypeError raised while validating (truthy non-string name/coin/coin_symbol). -/
def validateGoalData (g : GoalPayload) : Except Unit (List String) :=
  match requiredTrimmedCheck g.name "Goal name is required" with
  | Except.error e => Except.error e
  | Except.ok e1 =>
  match requiredTrimmedCheck g.coin "Coin is required" with
  | Except.error e => Except.error e
  | Except.ok e2 =>
  match requiredTrimmedCheck g.coin_symbol "Coin symbol is required" with
  | Except.error e => Except.error e
  | Except.ok e3 =>
  let e4 := match g.current_amount with
    | .num q => if q < 0 then ["Current amount must be a non-negative number"] else []
    | _ => ["Current amount must be a non-negative number"]
  let e5 := match g.target_amount with
    | .num q => if q ≤ 0 then ["Target amount must be a positive number"] else []
    | _ => ["Target amount must be a positive number"]
  let e6 := if jsGtVal g.current_amount g.target_amount then
      ["Current amount cannot exceed target amount"] else []
  let e7 := if ¬ g.goal_type.truthy || ¬ includesGoalType g.goal_type then
      ["Goal type must be one of: regular, parent, subgoal"] else []
  let e8 := if g.parent_goal_id.truthy && ¬ objectIdValidGVal g.parent_goal_id then
      ["Invalid parent goal ID format"] else []
  Except.ok (e1 ++ e2 ++ e3 ++ e4 ++ e5 ++ e6 ++ e7 ++ e8)

/-- The trimmed string of a value known to be a truthy string (the only
way validation lets it through). -/
def trimmedString : GVal → String
  | .str s => jsTrim s
  | _ => ""

/-- `createGoal`: validate, check the user exists, check the parent goal
exists when one is given, then insert the document built with the source's
`||` defaults. -/
def createGoal (st : GoalState) (g : GoalPayload) (now : Nat) (newId : String) :
    Except String (GoalState × GoalDoc) :=
  match validateGoalData g with
  | Except.error _ => Except.error "TypeError: trim is not a function"
  | Except.ok errs =>
    if errs ≠ [] then
      Except.error ("Validation failed: " ++ String.intercalate ", " errs)
    else if ¬ isValidObjectIdString g.user_id then
      Except.error "BSONError: invalid ObjectId"  -- new ObjectId(goalData.user_id) raises
    else if ¬ st.users.contains g.user_id then
      Except.error "User not found"
    else if g.parent_goal_id.truthy ∧ findGoal st g.parent_goal_id.idString = none then
      Except.error "Parent goal not found"
    else
      let newGoal : GoalDoc :=
        [ ("user_id", GVal.oid g.user_id),
          ("name", GVal.str (trimmedString g.name)),
          ("description", jsOr g.description (GVal.str "")),
          ("status", jsOr g.status (GVal.str "active")),
          ("progress", jsOr g.progress (GVal.num 0)),
          ("coin", GVal.str (trimmedString g.coin)),
          ("coin_symbol", GVal.str (trimmedString g.coin_symbol)),
          ("current_amount", g.current_amount),
          ("target_amount", g.target_amount),
          ("target_date", jsOr g.target_date GVal.jsNull),
          ("wallet_id", jsOr g.wallet_id GVal.jsNull),
          ("wallet_address", jsOr g.wallet_address GVal.jsNull),
          ("wallet_chain", jsOr g.wallet_chain GVal.jsNull),
          ("goal_type", g.goal_type),
          ("parent_goal_id",
            if g.parent_goal_id.truthy then GVal.oid g.parent_goal_id.idString
            else GVal.jsNull),
          ("is_aggregate", jsOr g.is_aggregate (GVal.boolean false)),
          ("milestones", jsOr g.milestones (GVal.blob 0)),  -- `[]` default, opaque
          ("notes", jsOr g.notes (GVal.str (trimmedString g.name))),
          ("created_at", GVal.time now),
          ("updated_at", GVal.time now) ]
      Except.ok ({ st with goals := (newId, newGoal) :: st.goals }, newGoal)

/-- JS `Math.round` (half away from zero is half toward +∞ in JS:
`Math.round(x) = floor(x + 0.5)` for every finite x). -/
def jsRound (q : ℚ) : ℤ := ⌊q + 1/2⌋

/-- `Math.round((current_amount / target_amount) * 100)`, the
`progress_percentage` derivation of every read path. -/
def progressPercentage (current target : ℚ) : ℤ := jsRound (current / target * 100)

/-- The derived percentage of a stored document, defined when both amounts
are numbers and the target is nonzero (the source divides unconditionally;
NaN/Infinity results of other shapes are outside the model). -/
def goalProgressPercentage (doc : GoalDoc) : Option ℤ :=
  match getField doc "current_amount", getField doc "target_amount" with
  | some (.num c), some (.num t) => if t = 0 then none else some (progressPercentage c t)
  | _, _ => none

/-- The per-field validation block of `updateGoal` (source lines 276-302),
run in source order; the first failing check's message is the thrown error. -/
def updateGoalFieldChecks (updates : List (String × GVal)) : Except String Unit :=
  match patchField updates "title" with
  | some v =>
    (match requiredTrimmedCheck v "Goal title cannot be empty" with
     | Except.error _ => Except.error "TypeError: trim is not a function"
     | Except.ok [] => checksAfterTitle updates
     | Except.ok _ => Except.error "Goal title cannot be empty")
  | none => checksAfterTitle updates
where
  checksAfterTitle (updates : List (String × GVal)) : Except String Unit :=
    match patchField updates "coin" with
    | some v =>
      (match requiredTrimmedCheck v "Coin cannot be empty" with
       | Except.error _ => Except.error "TypeError: trim is not a function"
       | Except.ok [] => checksAfterCoin updates
       | Except.ok _ => Except.error "Coin cannot be empty")
    | none => checksAfterCoin updates
  checksAfterCoin (updates : List (String × GVal)) : Except String Unit :=
    match patchField updates "coin_symbol" with
    | some v =>
      (match requiredTrimmedCheck v "Coin symbol cannot be empty" with
       | Except.error _ => Except.error "TypeError: trim is not a function"
       | Except.ok [] => checksAfterCoinSymbol updates
       | Except.ok _ => Except.error "Coin symbol cannot be empty")
    | none => checksAfterCoinSymbol updates
  checksAfterCoinSymbol (updates : List (String × GVal)) : Except String Unit :=
    match patchField updates "current_amount" with
    | some (.num q) =>
        if q < 0 then Except.error "Current amount must be a non-negative number"
        else checksAfterCurrent updates
    | some _ => Except.error "Current amount must be a non-negative number"
    | none => checksAfterCurrent updates
  checksAfterCurrent (updates : List (String × GVal)) : Except String Unit :=
    match patchField updates "target_amount" with
    | some (.num q) =>
        if q ≤ 0 then Except.error "Target amount must be a positive number"
        else checksAfterTarget updates
    | some _ => Except.error "Target amount must be a positive number"
    | none => checksAfterTarget updates
  checksAfterTarget (updates : List (String × GVal)) : Except String Unit :=
    match patchField updates "goal_type" with
    | some v =>
        if ¬ includesGoalType v then
          Except.error "Goal type must be one of: regular, parent, subgoal"
        else checksAfterGoalType updates
    | none => checksAfterGoalType updates
  checksAfterGoalType (updates : List (String × GVal)) : Except String Unit :=
    match patchField updates "parent_goal_id" with
    | some v =>
        if v.truthy && ¬ objectIdValidGVal v then
          Except.error "Invalid parent goal ID format"
        else Except.ok ()
    | none => Except.ok ()

/-- The `updateData` object of `updateGoal`: `{...updates, updated_at: now}`,
then `parent_goal_id` (when truthy) replaced by `new ObjectId(...)`. -/
def buildUpdateData (updates : List (String × GVal)) (now : Nat) : List (String × GVal) :=
  (updates.filter (fun kv => kv.1 ≠ "updated_at") ++ [("updated_at", GVal.time now)]).map
    (fun kv =>
      if kv.1 = "parent_goal_id" ∧ kv.2.truthy then (kv.1, GVal.oid kv.2.idString) else kv)

/-- The tail of `updateGoal` after the per-field checks passed: the
parent-goal existence check (run when the patch carries a truthy
`parent_goal_id`), then one `$set` with the whole patch. -/
def updateGoalChecked (st : GoalState) (goalId : String) (updates : List (String × GVal))
    (now : Nat) (existingGoal : GoalDoc) : Except String (GoalState × GoalDoc) :=
  if (patchField updates "parent_goal_id").elim false GVal.truthy ∧
     findGoal st ((patchField updates "parent_goal_id").getD GVal.jsNull).idString = none then
    Except.error "Parent goal not found"
  else
    let newDoc := setFields existingGoal (buildUpdateData updates now)
    Except.ok
      ({ st with goals := st.goals.map (fun g => if g.1 = goalId then (g.1, newDoc) else g) },
       newDoc)

/-- The body of `updateGoal` once the goal was found: the per-field checks
of `updateGoalFieldChecks`, then `updateGoalChecked`. -/
def updateGoalFound (st : GoalState) (goalId : String) (updates : List (String × GVal))
    (now : Nat) (existingGoal : GoalDoc) : Except String (GoalState × GoalDoc) :=
  match updateGoalFieldChecks updates with
  | Except.error e => Except.error e
  | Except.ok _ => updateGoalChecked st goalId updates now existingGoal

/-- `updateGoal`: id-shape check, existence, the per-field checks, the
parent-goal existence check, then one `$set` with the whole patch (every
key of the patch is written, validated or not). -/
def updateGoal (st : GoalState) (goalId : String) (updates : List (String × GVal)) (now : Nat) :
    Except String (GoalState × GoalDoc) :=
  if ¬ isValidObjectIdString goalId then Except.error "Invalid goal ID format"
  else match findGoal st goalId with
  | none => Except.error "Goal not found"
  | some existingGoal => updateGoalFound st goalId updates now existingGoal

/-- The tail of `updateGoalProgress` once the goal was found: the
`newAmount > existingGoal.target_amount` guard, then a `$set` of exactly
`current_amount` and `updated_at`. -/
def updateGoalProgressFound (st : GoalState) (goalId : String) (q : ℚ) (now : Nat)
    (existingGoal : GoalDoc) : Except String (GoalState × GoalDoc) :=
  if jsGtVal (GVal.num q) ((getField existingGoal "target_amount").getD GVal.jsNull) then
    Except.error "Current amount cannot exceed target amount"
  else
    let newDoc := setFields existingGoal
      [("current_amount", GVal.num q), ("updated_at", GVal.time now)]
    Except.ok
      ({ st with goals := st.goals.map (fun g => if g.1 = goalId then (g.1, newDoc) else g) },
       newDoc)

/-- The body of `updateGoalProgress` once the new amount passed the number
check: the sign check, id shape (`new ObjectId(goalId)` raises on a
malformed id — this method has no `ObjectId.isValid` pre-check), and
existence. -/
def updateGoalProgressNum (st : GoalState) (goalId : String) (q : ℚ) (now : Nat) :
    Except String (GoalState × GoalDoc) :=
  if q < 0 then Except.error "New amount must be a non-negative number"
  else if ¬ isValidObjectIdString goalId then Except.error "BSONError: invalid ObjectId"
  else match findGoal st goalId with
  | none => Except.error "Goal not found"
  | some existingGoal => updateGoalProgressFound st goalId q now existingGoal

/-- `updateGoalProgress`: `typeof newAmount !== 'number' || newAmount < 0`
rejects non-numbers and negatives; numbers continue in
`updateGoalProgressNum`. -/
def updateGoalProgress (st : GoalState) (goalId : String) (newAmount : GVal) (now : Nat) :
    Except String (GoalState × GoalDoc) :=
  match newAmount with
  | .num q => updateGoalProgressNum st goalId q now
  | _ => Except.error "New amount must be a non-negative number"

end GoalService

/-! ## Cache service (src/services/cacheService.js) -/

namespace CacheService

/-- The storage collaborator behind the cache. `connected` is false when
`connect()` failed or MONGODB_URI is unset (the collection getters then
return null); `raising` is true when the storage raises on every call (the
operations' catch blocks then swallow the error). The two collections:
wallet-data entries keyed by (wallet id, data type) carrying the blob and
its `last_fetched` stamp, and metadata entries keyed by coin type. -/
structure CacheStorage where
  connected : Bool
  raising : Bool
  walletData : List ((String × String) × (String × Nat))
  metadata : List (String × (String × Nat))
deriving Repr, DecidableEq

/-- `getWalletData`: null when the collection is unavailable, null when the
lookup raises (caught), otherwise the stored blob or null on a miss. The
operation's total `Option` type records that no failure propagates. -/
def getWalletData (st : CacheStorage) (walletId dataType : String) : Option String :=
  if ¬ st.connected then none
  else if st.raising then none
  else (st.walletData.find? (fun e => e.1.1 = walletId ∧ e.1.2 = dataType)).map (·.2.1)

/-- `setWalletData`: upsert with `last_fetched = now`; dropped silently when
the collection is unavailable or the write raises (caught). -/
def setWalletData (st : CacheStorage) (walletId dataType data : String) (now : Nat) :
    CacheStorage :=
  if ¬ st.connected then st
  else if st.raising then st
  else if st.walletData.any (fun e => e.1.1 = walletId ∧ e.1.2 = dataType) then
    { st with walletData := st.walletData.map (fun e =>
        if e.1.1 = walletId ∧ e.1.2 = dataType then (e.1, (data, now)) else e) }
  else
    { st with walletData := st.walletData ++ [((walletId, dataType), (data, now))] }

/-- `invalidateWalletData`: `deleteMany` of the wallet's entries, restricted
to one data type when given; dropped silently on unavailability or error. -/
def invalidateWalletData (st : CacheStorage) (walletId : String) (dataType : Option String) :
    CacheStorage :=
  if ¬ st.connected then st
  else if st.raising then st
  else { st with walletData := st.walletData.filter (fun e =>
      ¬ (e.1.1 = walletId ∧ (dataType = none ∨ dataType = some e.1.2))) }

/-- `getMetadata`: the stored metadata blob, null on miss, unavailability
or a caught error. -/
def getMetadata (st : CacheStorage) (coinType : String) : Option String :=
  if ¬ st.connected then none
  else if st.raising then none
  else (st.metadata.find? (fun e => e.1 = coinType)).map (·.2.1)

/-- One metadata upsert (`updateOne` with upsert, `$set {metadata, last_fetched}`). -/
def metadataUpsert (entries : List (String × (String × Nat))) (coinType data : String)
    (now : Nat) : List (String × (String × Nat)) :=
  if entries.any (fun e => e.1 = coinType) then
    entries.map (fun e => if e.1 = coinType then (e.1, (data, now)) else e)
  else entries ++ [(coinType, (data, now))]

/-- `setMetadata`: upsert; dropped silently on unavailability or error. -/
def setMetadata (st : CacheStorage) (coinType data : String) (now : Nat) : CacheStorage :=
  if ¬ st.connected then st
  else if st.raising then st
  else { st with metadata := metadataUpsert st.metadata coinType data now }

/-- `setBatchMetadata`: one `bulkWrite` of upserts over the entries of the
map; dropped silently on unavailability or error. -/
def setBatchMetadata (st : CacheStorage) (entries : List (String × String)) (now : Nat) :
    CacheStorage :=
  if ¬ st.connected then st
  else if st.raising then st
  else { st with metadata :=
      entries.foldl (fun acc kv => metadataUpsert acc kv.1 kv.2 now) st.metadata }

end CacheService

/-! ## Concrete fixtures used by the closed theorems below -/

/-- A valid 24-hex-char ObjectId string (user A). -/
def uidA : String := "aaaaaaaaaaaaaaaaaaaaaaaa"

/-- A valid 24-hex-char ObjectId string (user B). -/
def uidB : String := "bbbbbbbbbbbbbbbbbbbbbbbb"

/-- A valid 24-hex-char ObjectId string (wallet A). -/
def widA : String := "cccccccccccccccccccccccc"

/-- A valid 24-hex-char ObjectId string (wallet B). -/
def widB : String := "dddddddddddddddddddddddd"

/-- A valid 24-hex-char ObjectId string (goal A). -/
def gidA : String := "eeeeeeeeeeeeeeeeeeeeeeee"

/-- A valid 24-hex-char ObjectId string (goal B). -/
def gidB : String := "ffffffffffffffffffffffff"

/-- A well-formed ethereum address (0x and 40 hex characters). -/
def ethAddrA : String := "0xaaaaaaaaaaaaaaaaaaaaaaaaaaaaaaaaaaaaaaaa"

/-- The same ethereum address with its hex letters upper-cased. -/
def ethAddrACaps : String := "0xAAAAAAAAAAAAAAAAAAAAAAAAAAAAAAAAAAAAAAAA"

/-- A second, different ethereum address. -/
def ethAddrB : String := "0xbbbbbbbbbbbbbbbbbbbbbbbbbbbbbbbbbbbbbbbb"

/-- A well-formed sui address (0x and 64 hex characters). -/
def suiAddrA : String := "0xcccccccccccccccccccccccccccccccccccccccccccccccccccccccccccccccc"

/-- A well-formed bech32 bitcoin address (bc1 and 39 data characters). -/
def bech32AddrA : String := "bc1qqqqqqqqqqqqqqqqqqqqqqqqqqqqqqqqqqqqqqq"

/-- A well-formed legacy bitcoin address (1 and 26 base58 characters). -/
def legacyBtcAddrA : String := "1aaaaaaaaaaaaaaaaaaaaaaaaaa"

/-- User A's stored ethereum wallet. -/
def walletDocA : WalletService.WalletDoc :=
  { id := widA, userId := uidA, user_id := none, address := ethAddrA,
    label := "Main", chain := "ethereum", createdAt := 0, updatedAt := 0,
    updated_at := none }

/-- User B's stored ethereum wallet at a different address. -/
def walletDocB : WalletService.WalletDoc :=
  { id := widB, userId := uidB, user_id := none, address := ethAddrB,
    label := "Other", chain := "ethereum", createdAt := 0, updatedAt := 0,
    updated_at := none }

/-- One user, one wallet. -/
def wstateA : WalletService.WalletState := { users := [uidA], wallets := [walletDocA] }

/-- Two users, each with one wallet. -/
def wstateAB : WalletService.WalletState :=
  { users := [uidA, uidB], wallets := [walletDocA, walletDocB] }

/-- Two users, no wallets yet. -/
def wstate0 : WalletService.WalletState := { users := [uidA, uidB], wallets := [] }

/-- A valid creation payload for user A. -/
def walletPayloadA : WalletService.WalletPayload :=
  { user_id := uidA, label := some "Main", address := some ethAddrA, chain := some "Ethereum" }

/-- The same wallet re-submitted with different letter case in address and chain. -/
def walletPayloadACaps : WalletService.WalletPayload :=
  { user_id := uidA, label := some "Backup", address := some ethAddrACaps, chain := some "ETHEREUM" }

/-- The same address for user A on a different supported chain. -/
def walletPayloadAPoly : WalletService.WalletPayload :=
  { user_id := uidA, label := some "Poly", address := some ethAddrA, chain := some "polygon" }

/-- The same address and chain for the other user. -/
def walletPayloadB : WalletService.WalletPayload :=
  { user_id := uidB, label := some "Mirror", address := some ethAddrA, chain := some "ethereum" }

/-- User A's stored bitcoin wallet at a bech32 address. -/
def walletDocBtc : WalletService.WalletDoc :=
  { id := widA, userId := uidA, user_id := none, address := bech32AddrA,
    label := "Cold", chain := "bitcoin", createdAt := 0, updatedAt := 0,
    updated_at := none }

/-- One user, one bitcoin wallet. -/
def wstateBtc : WalletService.WalletState :=
  { users := [uidA], wallets := [walletDocBtc] }

/-- A stored goal document: 250 of 1000 saved. -/
def goalDocA : GoalService.GoalDoc :=
  [ ("user_id", GoalService.GVal.oid uidA),
    ("name", GoalService.GVal.str "Save"),
    ("description", GoalService.GVal.str ""),
    ("status", GoalService.GVal.str "active"),
    ("progress", GoalService.GVal.num 0),
    ("coin", GoalService.GVal.str "Sui"),
    ("coin_symbol", GoalService.GVal.str "SUI"),
    ("current_amount", GoalService.GVal.num 250),
    ("target_amount", GoalService.GVal.num 1000),
    ("target_date", GoalService.GVal.jsNull),
    ("wallet_id", GoalService.GVal.jsNull),
    ("wallet_address", GoalService.GVal.jsNull),
    ("wallet_chain", GoalService.GVal.jsNull),
    ("goal_type", GoalService.GVal.str "regular"),
    ("parent_goal_id", GoalService.GVal.jsNull),
    ("is_aggregate", GoalService.GVal.boolean false),
    ("milestones", GoalService.GVal.blob 0),
    ("notes", GoalService.GVal.str "Save"),
    ("created_at", GoalService.GVal.time 0),
    ("updated_at", GoalService.GVal.time 0) ]

/-- A second stored goal, used as a parent target. -/
def goalDocB : GoalService.GoalDoc :=
  [ ("user_id", GoalService.GVal.oid uidA),
    ("name", GoalService.GVal.str "Parent"),
    ("description", GoalService.GVal.str ""),
    ("status", GoalService.GVal.str "active"),
    ("progress", GoalService.GVal.num 0),
    ("coin", GoalService.GVal.str "Sui"),
    ("coin_symbol", GoalService.GVal.str "SUI"),
    ("current_amount", GoalService.GVal.num 0),
    ("target_amount", GoalService.GVal.num 500),
    ("target_date", GoalService.GVal.jsNull),
    ("wallet_id", GoalService.GVal.jsNull),
    ("wallet_address", GoalService.GVal.jsNull),
    ("wallet_chain", GoalService.GVal.jsNull),
    ("goal_type", GoalService.GVal.str "parent"),
    ("parent_goal_id", GoalService.GVal.jsNull),
    ("is_aggregate", GoalService.GVal.boolean false),
    ("milestones", GoalService.GVal.blob 0),
    ("notes", GoalService.GVal.str "Parent"),
    ("created_at", GoalService.GVal.time 0),
    ("updated_at", GoalService.GVal.time 0) ]

/-- One user, one goal. -/
def gstateA : GoalService.GoalState := { users := [uidA], goals := [(gidA, goalDocA)] }

/-- One user, two goals. -/
def gstateAB : GoalService.GoalState :=
  { users := [uidA], goals := [(gidA, goalDocA), (gidB, goalDocB)] }

/-- `goalDocA` after `updateGoal` wrote `{current_amount: 2000}` at time 7. -/
def goalDocA_overTarget : GoalService.GoalDoc :=
  [ ("user_id", GoalService.GVal.oid uidA),
    ("name", GoalService.GVal.str "Save"),
    ("description", GoalService.GVal.str ""),
    ("status", GoalService.GVal.str "active"),
    ("progress", GoalService.GVal.num 0),
    ("coin", GoalService.GVal.str "Sui"),
    ("coin_symbol", GoalService.GVal.str "SUI"),
    ("current_amount", GoalService.GVal.num 2000),
    ("target_amount", GoalService.GVal.num 1000),
    ("target_date", GoalService.GVal.jsNull),
    ("wallet_id", GoalService.GVal.jsNull),
    ("wallet_address", GoalService.GVal.jsNull),
    ("wallet_chain", GoalService.GVal.jsNull),
    ("goal_type", GoalService.GVal.str "regular"),
    ("parent_goal_id", GoalService.GVal.jsNull),
    ("is_aggregate", GoalService.GVal.boolean false),
    ("milestones", GoalService.GVal.blob 0),
    ("notes", GoalService.GVal.str "Save"),
    ("created_at", GoalService.GVal.time 0),
    ("updated_at", GoalService.GVal.time 7) ]

/-- `goalDocA` after `updateGoal` wrote `{parent_goal_id: gidB}` at time 3:
the stored value is the ObjectId conversion, not the string of the patch. -/
def goalDocA_withParent : GoalService.GoalDoc :=
  [ ("user_id", GoalService.GVal.oid uidA),
    ("name", GoalService.GVal.str "Save"),
    ("description", GoalService.GVal.str ""),
    ("status", GoalService.GVal.str "active"),
    ("progress", GoalService.GVal.num 0),
    ("coin", GoalService.GVal.str "Sui"),
    ("coin_symbol", GoalService.GVal.str "SUI"),
    ("current_amount", GoalService.GVal.num 250),
    ("target_amount", GoalService.GVal.num 1000),
    ("target_date", GoalService.GVal.jsNull),
    ("wallet_id", GoalService.GVal.jsNull),
    ("wallet_address", GoalService.GVal.jsNull),
    ("wallet_chain", GoalService.GVal.jsNull),
    ("goal_type", GoalService.GVal.str "regular"),
    ("parent_goal_id", GoalService.GVal.oid gidB),
    ("is_aggregate", GoalService.GVal.boolean false),
    ("milestones", GoalService.GVal.blob 0),
    ("notes", GoalService.GVal.str "Save"),
    ("created_at", GoalService.GVal.time 0),
    ("updated_at", GoalService.GVal.time 3) ]

/-! ## Supporting lemmas -/

theorem option_ite_eq_none_iff (b : Bool) (m : String) :
    ((if b then none else some m) : Option String) = none ↔ b = true := by
  cases b <;> simp

theorem dropWhile_eq_self_of_all_false {p : Char → Bool} {l : List Char}
    (h : ∀ c ∈ l, p c = false) : l.dropWhile p = l := by
  cases l with
  | nil => rfl
  | cons a t => simp [List.dropWhile_cons, h a (List.mem_cons_self a t)]

theorem jsTrim_eq_self {s : String} (h : ∀ c ∈ s.data, isJsWhitespaceChar c = false) :
    jsTrim s = s := by
  unfold jsTrim
  rw [dropWhile_eq_self_of_all_false h,
      dropWhile_eq_self_of_all_false (fun c hc => h c (List.mem_reverse.mp hc)),
      List.reverse_reverse]

theorem not_jsWhitespace_of_code_range {c : Char} (h1 : 48 ≤ charCode c)
    (h2 : charCode c ≤ 122) : isJsWhitespaceChar c = false := by
  simp only [isJsWhitespaceChar, Bool.or_eq_false_iff, decide_eq_false_iff_not,
    Bool.and_eq_false_iff]
  omega

theorem charCode_bounds_of_hex {c : Char} (h : isHexDigitChar c = true) :
    48 ≤ charCode c ∧ charCode c ≤ 122 := by
  simp only [isHexDigitChar, Bool.or_eq_true, Bool.and_eq_true, decide_eq_true_eq] at h
  omega

theorem charCode_bounds_of_base58 {c : Char} (h : isBase58Char c = true) :
    48 ≤ charCode c ∧ charCode c ≤ 122 := by
  simp only [isBase58Char, Bool.or_eq_true, Bool.and_eq_true, decide_eq_true_eq] at h
  omega

theorem charCode_bounds_of_bech32 {c : Char} (h : isBech32DataChar c = true) :
    48 ≤ charCode c ∧ charCode c ≤ 122 := by
  simp only [isBech32DataChar, Bool.or_eq_true, Bool.and_eq_true, decide_eq_true_eq] at h
  omega

theorem charCode_ofNat_of_valid {m : Nat} (h : m.isValidChar) :
    charCode (Char.ofNat m) = m := by
  unfold Char.ofNat
  rw [dif_pos h]
  rfl

theorem charCode_toLower_bounds {c : Char} (h1 : 48 ≤ charCode c) (h2 : charCode c ≤ 122) :
    48 ≤ charCode (Char.toLower c) ∧ charCode (Char.toLower c) ≤ 122 := by
  simp only [charCode] at h1 h2 ⊢
  unfold Char.toLower
  by_cases h : c.toNat ≥ 65 ∧ c.toNat ≤ 90
  · rw [if_pos h]
    have hv : (c.toNat + 32).isValidChar := by
      unfold Nat.isValidChar
      omega
    have := charCode_ofNat_of_valid hv
    simp only [charCode] at this
    rw [this]
    omega
  · rw [if_neg h]
    exact ⟨h1, h2⟩

theorem jsTrim_jsToLower_eq_of_bounds {s : String}
    (h : ∀ c ∈ s.data, 48 ≤ charCode c ∧ charCode c ≤ 122) :
    jsTrim (jsToLower s) = jsToLower s := by
  apply jsTrim_eq_self
  intro c hc
  obtain ⟨c', hc', rfl⟩ := List.mem_map.mp hc
  obtain ⟨hb1, hb2⟩ := h c' hc'
  obtain ⟨hl1, hl2⟩ := charCode_toLower_bounds hb1 hb2
  exact not_jsWhitespace_of_code_range hl1 hl2

theorem bounds_of_matches0xHex {n : Nat} {s : String} (h : matches0xHex n s = true) :
    ∀ c ∈ s.data, 48 ≤ charCode c ∧ charCode c ≤ 122 := by
  intro c hc
  unfold matches0xHex at h
  rcases hd : s.data with _ | ⟨c0, _ | ⟨c1, rest⟩⟩ <;> rw [hd] at h hc
  · simp at hc
  · simp at h
  · simp only [Bool.and_eq_true, decide_eq_true_eq] at h
    obtain ⟨⟨⟨h0, h1⟩, _⟩, hall⟩ := h
    rcases List.mem_cons.mp hc with rfl | hc'
    · subst h0; decide
    rcases List.mem_cons.mp hc' with rfl | hc''
    · subst h1; decide
    · exact charCode_bounds_of_hex (List.all_eq_true.mp hall c hc'')

theorem bounds_of_matchesBitcoinLegacy {s : String} (h : matchesBitcoinLegacy s = true) :
    ∀ c ∈ s.data, 48 ≤ charCode c ∧ charCode c ≤ 122 := by
  intro c hc
  unfold matchesBitcoinLegacy at h
  rcases hd : s.data with _ | ⟨c0, rest⟩ <;> rw [hd] at h hc
  · simp at hc
  · simp only [Bool.and_eq_true, Bool.or_eq_true, decide_eq_true_eq] at h
    obtain ⟨⟨h0, _⟩, hall⟩ := h
    rcases List.mem_cons.mp hc with rfl | hc'
    · rcases h0 with rfl | rfl <;> decide
    · exact charCode_bounds_of_base58 (List.all_eq_true.mp hall c hc')

theorem bounds_of_matchesBitcoinBech32 {s : String} (h : matchesBitcoinBech32 s = true) :
    ∀ c ∈ s.data, 48 ≤ charCode c ∧ charCode c ≤ 122 := by
  intro c hc
  unfold matchesBitcoinBech32 at h
  rcases hd : s.data with _ | ⟨c0, _ | ⟨c1, _ | ⟨c2, rest⟩⟩⟩ <;> rw [hd] at h hc
  · simp at hc
  · simp at h
  · simp at h
  · simp only [Bool.and_eq_true, decide_eq_true_eq] at h
    obtain ⟨⟨⟨⟨h0, h1⟩, h2⟩, _⟩, hall⟩ := h
    rcases List.mem_cons.mp hc with rfl | hc'
    · subst h0; decide
    rcases List.mem_cons.mp hc' with rfl | hc''
    · subst h1; decide
    rcases List.mem_cons.mp hc'' with rfl | hc3
    · subst h2; decide
    · exact charCode_bounds_of_bech32 (List.all_eq_true.mp hall c hc3)

theorem bounds_of_matchesSolanaAddress {s : String} (h : matchesSolanaAddress s = true) :
    ∀ c ∈ s.data, 48 ≤ charCode c ∧ charCode c ≤ 122 := by
  intro c hc
  unfold matchesSolanaAddress at h
  simp only [Bool.and_eq_true, decide_eq_true_eq] at h
  exact charCode_bounds_of_base58 (List.all_eq_true.mp h.2 c hc)

theorem legacy_false_of_bech32 {s : String} (h : matchesBitcoinBech32 s = true) :
    matchesBitcoinLegacy s = false := by
  unfold matchesBitcoinBech32 at h
  unfold matchesBitcoinLegacy
  rcases hd : s.data with _ | ⟨c0, _ | ⟨c1, _ | ⟨c2, rest⟩⟩⟩ <;> rw [hd] at h <;>
    try exact Bool.noConfusion h
  have h' : (decide (c0 = 'b') && decide (c1 = 'c') && decide (c2 = '1') &&
      (decide (39 ≤ rest.length) && decide (rest.length ≤ 59)) &&
      rest.all isBech32DataChar) = true := h
  simp only [Bool.and_eq_true, decide_eq_true_eq] at h'
  obtain ⟨⟨⟨⟨h0, _⟩, _⟩, _⟩, _⟩ := h'
  subst h0
  show ((decide (('b' : Char) = '1') || decide (('b' : Char) = '3')) &&
      (decide (25 ≤ (c1 :: c2 :: rest).length) && decide ((c1 :: c2 :: rest).length ≤ 34)) &&
      (c1 :: c2 :: rest).all isBase58Char) = false
  have hb : (decide (('b' : Char) = '1') || decide (('b' : Char) = '3')) = false := by decide
  rw [hb, Bool.false_and, Bool.false_and]

/-! ## Claims -/

/-- Claim C1: for every address and chain string, the chain-aware address
validators are pure functions that, when the case-folded chain (with the
aliases of the shared validator) is supported, return null exactly when the
address matches that chain's shape rule, and when the chain is unsupported
return the distinct unsupported-chain reason, never null. The first
conjunct covers the shared validator of validation.ts (aliases
eth/btc/sol/matic fold to their canonical chain), the second the
wallet-service validator (canonical names only; its bitcoin rule also
admits bech32). -/
theorem claim_c1_validator_shape :
    ∀ address chain : String,
      (match sharedChainShape (SharedValidation.normalizeChain chain) with
       | some rule =>
           SharedValidation.validateAddressByChain address chain = none ↔ rule address = true
       | none =>
           SharedValidation.validateAddressByChain address chain =
             some "Unsupported blockchain network")
    ∧ (match walletChainShape (jsToLower chain) with
       | some rule =>
           WalletService.validateAddressByChain address chain = none ↔ rule address = true
       | none =>
           WalletService.validateAddressByChain address chain =
             some "Unsupported blockchain chain") := by
  intro address chain
  constructor
  · unfold sharedChainShape SharedValidation.validateAddressByChain
    split_ifs <;>
      simp only [sharedValidators.ethereumAddress, sharedValidators.bitcoinAddress,
        sharedValidators.solanaAddress, sharedValidators.suiAddress,
        sharedValidators.aptosAddress] <;>
      first
        | exact option_ite_eq_none_iff _ _
        | rfl
  · unfold walletChainShape WalletService.validateAddressByChain
    split_ifs <;> simp_all

/-- Claim C6: on the bitcoin chain the wallet-service validator and the
standalone shared validator agree except exactly on bech32 addresses: both
accept a legacy address, both reject a string matching neither pattern, and
a bech32 address is accepted by the wallet-service variant but rejected by
the shared one. -/
theorem claim_c6_bitcoin_divergence :
    ∀ address : String,
      (matchesBitcoinLegacy address = true →
        WalletService.validateAddressByChain address "bitcoin" = none ∧
        sharedValidators.bitcoinAddress address = none)
    ∧ (matchesBitcoinLegacy address = false → matchesBitcoinBech32 address = false →
        WalletService.validateAddressByChain address "bitcoin" =
          some "Invalid Bitcoin address format" ∧
        sharedValidators.bitcoinAddress address = some "Invalid Bitcoin address")
    ∧ (matchesBitcoinBech32 address = true →
        WalletService.validateAddressByChain address "bitcoin" = none ∧
        sharedValidators.bitcoinAddress address = some "Invalid Bitcoin address") := by
  intro address
  have hbase : WalletService.validateAddressByChain address "bitcoin" =
      (if matchesBitcoinLegacy address || matchesBitcoinBech32 address then none
       else some "Invalid Bitcoin address format") := rfl
  refine ⟨?_, ?_, ?_⟩
  · intro h
    rw [hbase]
    constructor
    · simp [h]
    · simp [sharedValidators.bitcoinAddress, h]
  · intro h1 h2
    rw [hbase]
    constructor
    · simp [h1, h2]
    · simp [sharedValidators.bitcoinAddress, h1]
  · intro h
    have hleg := legacy_false_of_bech32 h
    rw [hbase]
    constructor
    · simp [h]
    · simp [sharedValidators.bitcoinAddress, hleg]

/-- Claim C8: while the storage collaborator is unavailable or raising,
every cache read returns null (indistinguishable from a miss) and every
cache write returns normally without writing; no operation propagates a
failure (their return types are total — no error channel exists). -/
theorem claim_c8_cache_degrades_silently (st : CacheService.CacheStorage)
    (h : st.connected = false ∨ st.raising = true) :
    (∀ wid dt, CacheService.getWalletData st wid dt = none)
    ∧ (∀ ct, CacheService.getMetadata st ct = none)
    ∧ (∀ wid dt data now, CacheService.setWalletData st wid dt data now = st)
    ∧ (∀ ct data now, CacheService.setMetadata st ct data now = st)
    ∧ (∀ entries now, CacheService.setBatchMetadata st entries now = st)
    ∧ (∀ wid dt?, CacheService.invalidateWalletData st wid dt? = st) := by
  refine ⟨?_, ?_, ?_, ?_, ?_, ?_⟩ <;> intros <;>
    rcases h with h | h <;>
    simp [CacheService.getWalletData, CacheService.getMetadata,
      CacheService.setWalletData, CacheService.setMetadata,
      CacheService.setBatchMetadata, CacheService.invalidateWalletData, h] <;>
    intro hc <;> simp [hc]

/-- Witness for C8 at a disconnected empty storage and at a raising one. -/
theorem claim_c8_witness :
    CacheService.getWalletData ⟨false, false, [], []⟩ "w1" "holdings" = none ∧
    CacheService.setWalletData ⟨true, true, [], []⟩ "w1" "holdings" "blob" 5 =
      ⟨true, true, [], []⟩ :=
  ⟨(claim_c8_cache_degrades_silently ⟨false, false, [], []⟩ (Or.inl rfl)).1 "w1" "holdings",
   (claim_c8_cache_degrades_silently ⟨true, true, [], []⟩
      (Or.inr rfl)).2.2.1 "w1" "holdings" "blob" 5⟩

/-- Claim C5 (code bug): `validateWalletData` is not total. With `chain`
absent it raises a TypeError at `walletData.chain.toLowerCase()` (line 60)
instead of returning the list holding the required-field reason, and
`createWallet` propagates that exception; with `chain` present but empty
the required-field reason is returned (together with the unsupported-chain
reason) and no exception occurs. -/
theorem claim_c5_missing_chain_crash :
    WalletService.validateWalletData
      { user_id := uidA, label := some "Main", address := some ethAddrA, chain := none } =
      Except.error ()
    ∧ WalletService.validateWalletData
        { user_id := uidA, label := some "Main", address := some ethAddrA, chain := some "" } =
        Except.ok ["Blockchain chain is required", WalletService.unsupportedChainsError]
    ∧ WalletService.createWallet { users := [uidA], wallets := [] }
        { user_id := uidA, label := some "Main", address := some ethAddrA, chain := none }
        0 widA = Except.error "TypeError: chain is undefined" :=
  ⟨rfl, rfl, rfl⟩

/-- Counterexample to claim C2: a patch that changes both address and chain
is NOT validated against the final post-patch pair. Here the wallet holds
an ethereum address, the patch moves it to a valid sui address on chain
sui — the final pair validates cleanly and no duplicate exists, yet
`updateWallet` aborts with the Ethereum-format error because it validated
the new address against the EXISTING chain. -/
theorem claim_c2_counterexample :
    WalletService.updateWallet wstateA widA
      { label := none, address := some suiAddrA, chain := some "sui" } 3 =
      Except.error "Invalid Ethereum address format (should be 0x followed by 40 hex characters)"
    ∧ WalletService.validateAddressByChain (jsTrim (jsToLower suiAddrA))
        (jsTrim (jsToLower "sui")) = none
    ∧ wstateA.wallets.all
        (fun w => ¬(w.address = jsToLower suiAddrA ∧ w.chain = jsToLower "sui")) = true :=
  ⟨rfl, rfl, rfl⟩

/-- Claim C9 (code bug): the update-path duplicate check blocks on a
matching wallet of a DIFFERENT user. `wstateAB` holds user A's wallet at
`ethAddrA` and user B's wallet at `ethAddrB`; user B updating their own
wallet to `ethAddrA` is rejected as a duplicate although user B holds no
wallet at that (address, chain) — the query filters on the never-written
`user_id` key, which matches every wallet document. -/
theorem claim_c9_cross_user_duplicate :
    WalletService.updateWallet wstateAB widB
      { label := none, address := some ethAddrA, chain := none } 5 =
      Except.error "Wallet with this address and chain already exists for this user"
    ∧ wstateAB.wallets.all
        (fun w => ¬(w.userId = uidB ∧ w.address = jsToLower ethAddrA ∧
                    w.chain = "ethereum" ∧ w.id ≠ widB)) = true :=
  ⟨rfl, rfl⟩

theorem getField_setField (doc : GoalService.GoalDoc) (k k' : String) (v : GoalService.GVal) :
    GoalService.getField (GoalService.setField doc k v) k' =
      if k' = k then some v else GoalService.getField doc k' := by
  induction doc with
  | nil =>
      simp only [GoalService.setField, GoalService.getField]
      by_cases hk : k' = k
      · subst hk; simp
      · rw [if_neg (fun h : k = k' => hk h.symm), if_neg hk]
  | cons a t ih =>
      simp only [GoalService.setField]
      by_cases ha : a.1 = k
      · rw [if_pos ha]
        simp only [GoalService.getField]
        by_cases hk : k' = k
        · subst hk; simp
        · rw [if_neg (fun h : k = k' => hk h.symm), if_neg hk,
            if_neg (fun h : a.1 = k' => hk (ha ▸ h).symm)]
      · rw [if_neg ha]
        simp only [GoalService.getField, ih]
        by_cases hk : k' = k <;> by_cases hak : a.1 = k' <;> simp_all

theorem setFields_cons (doc : GoalService.GoalDoc) (a : String × GoalService.GVal)
    (t : List (String × GoalService.GVal)) :
    GoalService.setFields doc (a :: t) =
      GoalService.setFields (GoalService.setField doc a.1 a.2) t := rfl

theorem getField_setFields_not_mem {patch : List (String × GoalService.GVal)} {k' : String}
    (h : ∀ kv ∈ patch, kv.1 ≠ k') (doc : GoalService.GoalDoc) :
    GoalService.getField (GoalService.setFields doc patch) k' = GoalService.getField doc k' := by
  induction patch generalizing doc with
  | nil => rfl
  | cons a t ih =>
      rw [setFields_cons, ih (fun kv hkv => h kv (List.mem_cons_of_mem a hkv)),
        getField_setField, if_neg (fun hk => h a (List.mem_cons_self a t) hk.symm)]

theorem getField_setFields_mem {k : String} {v : GoalService.GVal} :
    ∀ (patch : List (String × GoalService.GVal)) (doc : GoalService.GoalDoc),
      (patch.map Prod.fst).Nodup → (k, v) ∈ patch →
      GoalService.getField (GoalService.setFields doc patch) k = some v := by
  intro patch
  induction patch with
  | nil => intro doc _ hmem; exact absurd hmem (List.not_mem_nil _)
  | cons a t ih =>
      intro doc hnd hmem
      rw [setFields_cons]
      rcases List.mem_cons.mp hmem with heq | hmem'
      · subst heq
        have hk_not : k ∉ t.map Prod.fst := by
          simp only [List.map_cons, List.nodup_cons] at hnd
          exact hnd.1
        have hnk : ∀ kv ∈ t, kv.1 ≠ k := fun kv hkv hk =>
          hk_not (hk ▸ List.mem_map_of_mem Prod.fst hkv)
        rw [getField_setFields_not_mem hnk, getField_setField, if_pos rfl]
      · refine ih _ ?_ hmem'
        simp only [List.map_cons, List.nodup_cons] at hnd
        exact hnd.2

theorem getField_eq_none {patch : List (String × GoalService.GVal)} {k : String}
    (h : ∀ kv ∈ patch, kv.1 ≠ k) : GoalService.getField patch k = none := by
  induction patch with
  | nil => rfl
  | cons a t ih =>
      simp only [GoalService.getField]
      rw [if_neg (h a (List.mem_cons_self a t)),
        ih (fun kv hkv => h kv (List.mem_cons_of_mem a hkv))]

theorem getField_setFields_last (doc : GoalService.GoalDoc)
    (l : List (String × GoalService.GVal)) (k : String) (v : GoalService.GVal) :
    GoalService.getField (GoalService.setFields doc (l ++ [(k, v)])) k = some v := by
  unfold GoalService.setFields
  rw [List.foldl_append]
  simp only [List.foldl_cons, List.foldl_nil]
  rw [show (GoalService.setField (List.foldl (fun d kv => GoalService.setField d kv.1 kv.2) doc l) k v) =
      GoalService.setField (GoalService.setFields doc l) k v from rfl]
  rw [getField_setField, if_pos rfl]

theorem validateGoalData_ok_amounts {g : GoalService.GoalPayload}
    (h : GoalService.validateGoalData g = Except.ok []) :
    ∃ c t : ℚ, g.current_amount = GoalService.GVal.num c ∧
      g.target_amount = GoalService.GVal.num t ∧ 0 ≤ c ∧ 0 < t ∧ c ≤ t := by
  unfold GoalService.validateGoalData at h
  cases h1 : GoalService.requiredTrimmedCheck g.name "Goal name is required" <;> rw [h1] at h
  · exact absurd h (by simp)
  cases h2 : GoalService.requiredTrimmedCheck g.coin "Coin is required" <;> rw [h2] at h
  · exact absurd h (by simp)
  cases h3 : GoalService.requiredTrimmedCheck g.coin_symbol "Coin symbol is required" <;>
    rw [h3] at h
  · exact absurd h (by simp)
  simp only [Except.ok.injEq, List.append_eq_nil] at h
  obtain ⟨⟨⟨⟨⟨⟨⟨-, -⟩, -⟩, h4⟩, h5⟩, h6⟩, -⟩, -⟩ := h
  rcases hc : g.current_amount with s | c | b | _ | s | t' | n <;> rw [hc] at h4 <;>
    try exact absurd h4 (List.cons_ne_nil _ _)
  rcases ht : g.target_amount with s | t | b | _ | s | t' | n <;> rw [ht] at h5 <;>
    try exact absurd h5 (List.cons_ne_nil _ _)
  rw [hc, ht] at h6
  have h4x : (if c < 0 then ["Current amount must be a non-negative number"]
      else ([] : List String)) = [] := h4
  have h5x : (if t ≤ 0 then ["Target amount must be a positive number"]
      else ([] : List String)) = [] := h5
  simp only [ite_eq_right_iff, List.cons_ne_nil, imp_false] at h4x h5x
  refine ⟨c, t, rfl, rfl, not_lt.mp h4x, not_le.mp h5x, ?_⟩
  have h6x : GoalService.jsGtVal (GoalService.GVal.num c) (GoalService.GVal.num t) = true →
      False := by
    intro hgt
    rw [hgt] at h6
    simp at h6
  have hnotlt : ¬ (t < c) := fun hlt => h6x (by
    simp only [GoalService.jsGtVal, decide_eq_true_eq]
    exact hlt)
  exact not_lt.mp hnotlt

theorem createGoal_ok_inversion {st : GoalService.GoalState} {g : GoalService.GoalPayload}
    {now : Nat} {newId : String} {st' : GoalService.GoalState} {doc : GoalService.GoalDoc}
    (h : GoalService.createGoal st g now newId = Except.ok (st', doc)) :
    GoalService.validateGoalData g = Except.ok [] ∧
    GoalService.getField doc "current_amount" = some g.current_amount ∧
    GoalService.getField doc "target_amount" = some g.target_amount := by
  unfold GoalService.createGoal at h
  split at h
  · exact Except.noConfusion h
  rename_i errs heq
  split_ifs at h with h1 h2 h3 h4 <;> try exact Except.noConfusion h
  all_goals
    have herrs : errs = [] := not_not.mp h1
    subst herrs
    injection h with hpair
    injection hpair with hst hdoc
    subst hdoc
    exact ⟨heq, rfl, rfl⟩

theorem updateGoalProgress_ok_inversion {st : GoalService.GoalState} {gid : String}
    {v : GoalService.GVal} {now : Nat} {st' : GoalService.GoalState}
    {doc' : GoalService.GoalDoc}
    (h : GoalService.updateGoalProgress st gid v now = Except.ok (st', doc')) :
    ∃ q ex, v = GoalService.GVal.num q ∧ 0 ≤ q ∧
      GoalService.findGoal st gid = some ex ∧
      GoalService.jsGtVal (GoalService.GVal.num q)
        ((GoalService.getField ex "target_amount").getD GoalService.GVal.jsNull) = false ∧
      doc' = GoalService.setFields ex
        [("current_amount", GoalService.GVal.num q), ("updated_at", GoalService.GVal.time now)] ∧
      st' = { st with goals :=
        (st.goals.map fun g => if g.1 = gid then (g.1, doc') else g) } := by
  rcases v with s | q | b | _ | s | t' | n
  case num =>
    have h' : GoalService.updateGoalProgressNum st gid q now = Except.ok (st', doc') := h
    unfold GoalService.updateGoalProgressNum at h'
    split_ifs at h' with hq hid
    cases hfind : GoalService.findGoal st gid <;> rw [hfind] at h'
    · exact Except.noConfusion h'
    rename_i ex
    have h2 : (if GoalService.jsGtVal (GoalService.GVal.num q)
          ((GoalService.getField ex "target_amount").getD GoalService.GVal.jsNull) then
        (Except.error "Current amount cannot exceed target amount" :
          Except String (GoalService.GoalState × GoalService.GoalDoc))
      else Except.ok
        ({ st with goals := (st.goals.map fun g => if g.1 = gid then
              (g.1, GoalService.setFields ex
                [("current_amount", GoalService.GVal.num q),
                 ("updated_at", GoalService.GVal.time now)]) else g) },
         GoalService.setFields ex
           [("current_amount", GoalService.GVal.num q),
            ("updated_at", GoalService.GVal.time now)])) = Except.ok (st', doc') := h'
    split_ifs at h2 with hgt
    all_goals try exact Except.noConfusion h2
    simp only [Except.ok.injEq, Prod.mk.injEq] at h2
    obtain ⟨hst, hdoc⟩ := h2
    subst hdoc
    refine ⟨q, ex, rfl, by linarith, rfl, by simpa using hgt, rfl, ?_⟩
    exact hst.symm
  all_goals exact Except.noConfusion h

theorem updateGoal_ok_inversion {st : GoalService.GoalState} {gid : String}
    {updates : List (String × GoalService.GVal)} {now : Nat}
    {st' : GoalService.GoalState} {doc' : GoalService.GoalDoc}
    (h : GoalService.updateGoal st gid updates now = Except.ok (st', doc')) :
    ∃ ex, GoalService.findGoal st gid = some ex ∧
      doc' = GoalService.setFields ex (GoalService.buildUpdateData updates now) := by
  unfold GoalService.updateGoal at h
  split_ifs at h with hid
  all_goals try exact Except.noConfusion h
  cases hfind : GoalService.findGoal st gid <;> rw [hfind] at h
  · exact Except.noConfusion h
  rename_i ex
  have h2 : GoalService.updateGoalFound st gid updates now ex = Except.ok (st', doc') := h
  unfold GoalService.updateGoalFound at h2
  cases hchk : GoalService.updateGoalFieldChecks updates <;> rw [hchk] at h2
  · exact Except.noConfusion h2
  have h3 : GoalService.updateGoalChecked st gid updates now ex = Except.ok (st', doc') := h2
  unfold GoalService.updateGoalChecked at h3
  split_ifs at h3 with hpar
  all_goals try exact Except.noConfusion h3
  injection h3 with hpair
  injection hpair with hst hdoc
  exact ⟨ex, rfl, hdoc.symm⟩

theorem buildUpdateData_split (updates : List (String × GoalService.GVal)) (now : Nat) :
    GoalService.buildUpdateData updates now =
      ((updates.filter (fun kv => kv.1 ≠ "updated_at")).map
        (fun kv => if kv.1 = "parent_goal_id" ∧ kv.2.truthy then
          (kv.1, GoalService.GVal.oid kv.2.idString) else kv)) ++
      [("updated_at", GoalService.GVal.time now)] := by
  unfold GoalService.buildUpdateData
  rw [List.map_append]
  simp

theorem buildUpdateData_mem {updates : List (String × GoalService.GVal)} {k : String}
    {v : GoalService.GVal} (hmem : (k, v) ∈ updates) (hk1 : k ≠ "updated_at")
    (hk2 : k ≠ "parent_goal_id") (now : Nat) :
    (k, v) ∈ GoalService.buildUpdateData updates now := by
  unfold GoalService.buildUpdateData
  apply List.mem_map.mpr
  refine ⟨(k, v), List.mem_append_left _ (List.mem_filter.mpr ⟨hmem, by simp [hk1]⟩), ?_⟩
  exact if_neg (fun hh => hk2 hh.1)

theorem buildUpdateData_parent_mem {updates : List (String × GoalService.GVal)}
    {v : GoalService.GVal} (hmem : ("parent_goal_id", v) ∈ updates)
    (htr : v.truthy = true) (now : Nat) :
    ("parent_goal_id", GoalService.GVal.oid v.idString) ∈
      GoalService.buildUpdateData updates now := by
  unfold GoalService.buildUpdateData
  apply List.mem_map.mpr
  refine ⟨("parent_goal_id", v),
    List.mem_append_left _ (List.mem_filter.mpr ⟨hmem, by simp⟩), ?_⟩
  simp [htr]

theorem buildUpdateData_keys_nodup {updates : List (String × GoalService.GVal)}
    (hnd : (updates.map Prod.fst).Nodup) (now : Nat) :
    ((GoalService.buildUpdateData updates now).map Prod.fst).Nodup := by
  unfold GoalService.buildUpdateData
  have hkeys : ∀ (l : List (String × GoalService.GVal)),
      (l.map (fun kv => if kv.1 = "parent_goal_id" ∧ kv.2.truthy then
          (kv.1, GoalService.GVal.oid kv.2.idString) else kv)).map Prod.fst =
        l.map Prod.fst := by
    intro l
    rw [List.map_map]
    apply List.map_congr_left
    intro kv _
    by_cases hkv : kv.1 = "parent_goal_id" ∧ kv.2.truthy = true <;> simp [hkv]
  rw [hkeys, List.map_append]
  apply List.Nodup.append
  · exact ((List.filter_sublist updates).map Prod.fst).nodup hnd
  · simp
  · intro a ha hb
    simp only [List.map_cons, List.map_nil, List.mem_singleton] at hb
    subst hb
    obtain ⟨kv, hkv, hfst⟩ := List.mem_map.mp ha
    have hmf := List.mem_filter.mp hkv
    simp only [ne_eq, decide_not, Bool.not_eq_true', decide_eq_false_iff_not] at hmf
    exact hmf.2 hfst

theorem updateGoalFieldChecks_ok_of_none {updates : List (String × GoalService.GVal)}
    (h : ∀ kv ∈ updates, kv.1 ∉ (["title", "coin", "coin_symbol", "current_amount",
        "target_amount", "goal_type", "parent_goal_id"] : List String)) :
    GoalService.updateGoalFieldChecks updates = Except.ok () := by
  have habs : ∀ k : String, k ∈ (["title", "coin", "coin_symbol", "current_amount",
      "target_amount", "goal_type", "parent_goal_id"] : List String) →
      GoalService.patchField updates k = none := by
    intro k hk
    exact getField_eq_none (fun kv hkv hke => h kv hkv (hke ▸ hk))
  have h1 := habs "title" (by simp)
  have h2 := habs "coin" (by simp)
  have h3 := habs "coin_symbol" (by simp)
  have h4 := habs "current_amount" (by simp)
  have h5 := habs "target_amount" (by simp)
  have h6 := habs "goal_type" (by simp)
  have h7 := habs "parent_goal_id" (by simp)
  unfold GoalService.updateGoalFieldChecks
  rw [h1]
  unfold GoalService.updateGoalFieldChecks.checksAfterTitle
  rw [h2]
  unfold GoalService.updateGoalFieldChecks.checksAfterCoin
  rw [h3]
  unfold GoalService.updateGoalFieldChecks.checksAfterCoinSymbol
  rw [h4]
  unfold GoalService.updateGoalFieldChecks.checksAfterCurrent
  rw [h5]
  unfold GoalService.updateGoalFieldChecks.checksAfterTarget
  rw [h6]
  unfold GoalService.updateGoalFieldChecks.checksAfterGoalType
  rw [h7]

/-- Counterexample to claim C3: `updateGoal` accepts a patch whose merged
result violates `current_amount ≤ target_amount`. On a stored goal with
target 1000 and current 250, the patch `{current_amount: 2000}` passes the
per-field checks (2000 is a non-negative number), is written, and the
stored record now holds current 2000 > target 1000 — no error, no
rejection. -/
theorem claim_c3_counterexample :
    GoalService.updateGoal gstateA gidA [("current_amount", GoalService.GVal.num 2000)] 7 =
      Except.ok ({ users := [uidA], goals := [(gidA, goalDocA_overTarget)] },
        goalDocA_overTarget)
    ∧ GoalService.getField goalDocA_overTarget "current_amount" =
        some (GoalService.GVal.num 2000)
    ∧ GoalService.getField goalDocA_overTarget "target_amount" =
        some (GoalService.GVal.num 1000)
    ∧ (2000 : ℚ) > 1000 :=
  ⟨rfl, rfl, rfl, by norm_num⟩

/-- Claim C3 amended: the invariant `current_amount ≤ target_amount` is
enforced by `createGoal` (any violating payload is rejected) and by
`updateGoalProgress` (a new amount above the stored target is rejected),
but NOT by `updateGoal`, which validates each patched field only
individually and never compares `current_amount` with `target_amount` on
the merged view (see the counterexample). -/
theorem claim_c3_amended_invariant :
    (∀ st g now newId st' doc,
      GoalService.createGoal st g now newId = Except.ok (st', doc) →
      ∃ c t : ℚ, GoalService.getField doc "current_amount" = some (GoalService.GVal.num c) ∧
        GoalService.getField doc "target_amount" = some (GoalService.GVal.num t) ∧
        0 ≤ c ∧ 0 < t ∧ c ≤ t)
    ∧ (∀ st gid v now st' doc' ex T,
      GoalService.findGoal st gid = some ex →
      GoalService.getField ex "target_amount" = some (GoalService.GVal.num T) →
      GoalService.updateGoalProgress st gid v now = Except.ok (st', doc') →
      ∃ q : ℚ, v = GoalService.GVal.num q ∧
        GoalService.getField doc' "current_amount" = some (GoalService.GVal.num q) ∧
        GoalService.getField doc' "target_amount" = some (GoalService.GVal.num T) ∧
        0 ≤ q ∧ q ≤ T) := by
  constructor
  · intro st g now newId st' doc h
    obtain ⟨hval, hcur, htgt⟩ := createGoal_ok_inversion h
    obtain ⟨c, t, hc, ht, hc0, ht0, hct⟩ := validateGoalData_ok_amounts hval
    exact ⟨c, t, by rw [hcur, hc], by rw [htgt, ht], hc0, ht0, hct⟩
  · intro st gid v now st' doc' ex T hfind htgt h
    obtain ⟨q, ex', hv, hq0, hfind', hgt, hdoc, -⟩ := updateGoalProgress_ok_inversion h
    rw [hfind] at hfind'
    injection hfind' with hex
    subst hex
    have hcur' : GoalService.getField doc' "current_amount" =
        some (GoalService.GVal.num q) := by
      rw [hdoc]
      exact getField_setFields_mem _ _ (by simp) (by simp)
    have htgt' : GoalService.getField doc' "target_amount" =
        some (GoalService.GVal.num T) := by
      rw [hdoc, getField_setFields_not_mem (by simp) ex]
      exact htgt
    refine ⟨q, hv, hcur', htgt', hq0, ?_⟩
    rw [htgt] at hgt
    simp only [Option.getD_some, GoalService.jsGtVal, decide_eq_false_iff_not, not_lt] at hgt
    exact hgt

/-- Claim C7: `updateGoalProgress` on a stored goal with numeric target
`T > 0` fails when the new amount is not a number, is negative, or exceeds
`T`; and on success it writes exactly `current_amount` and the `updated_at`
timestamp, leaves every other field and every other goal untouched, and
the re-read record's `progress_percentage` is recomputed from the new
amount. -/
theorem claim_c7_progress_update (st : GoalService.GoalState) (gid : String)
    (now : Nat) (ex : GoalService.GoalDoc) (T : ℚ)
    (hfind : GoalService.findGoal st gid = some ex)
    (htgt : GoalService.getField ex "target_amount" = some (GoalService.GVal.num T))
    (hT : 0 < T) (hid : isValidObjectIdString gid = true) :
    (∀ v : GoalService.GVal, v.isNum = false →
      GoalService.updateGoalProgress st gid v now =
        Except.error "New amount must be a non-negative number")
    ∧ (∀ q : ℚ, q < 0 →
      GoalService.updateGoalProgress st gid (GoalService.GVal.num q) now =
        Except.error "New amount must be a non-negative number")
    ∧ (∀ q : ℚ, 0 ≤ q → T < q →
      GoalService.updateGoalProgress st gid (GoalService.GVal.num q) now =
        Except.error "Current amount cannot exceed target amount")
    ∧ (∀ q : ℚ, 0 ≤ q → q ≤ T →
      ∃ st' doc', GoalService.updateGoalProgress st gid (GoalService.GVal.num q) now =
          Except.ok (st', doc') ∧
        GoalService.getField doc' "current_amount" = some (GoalService.GVal.num q) ∧
        GoalService.getField doc' "updated_at" = some (GoalService.GVal.time now) ∧
        (∀ k, k ≠ "current_amount" → k ≠ "updated_at" →
          GoalService.getField doc' k = GoalService.getField ex k) ∧
        (∀ g ∈ st.goals, g.1 ≠ gid → g ∈ st'.goals) ∧
        GoalService.goalProgressPercentage doc' =
          some (GoalService.progressPercentage q T)) := by
  have hbase : ∀ q : ℚ, GoalService.updateGoalProgress st gid (GoalService.GVal.num q) now =
      GoalService.updateGoalProgressNum st gid q now := fun _ => rfl
  refine ⟨?_, ?_, ?_, ?_⟩
  · intro v hv
    rcases v with s | q | b | _ | s | t' | n
    case num => exact Bool.noConfusion hv
    all_goals rfl
  · intro q hq
    rw [hbase]
    unfold GoalService.updateGoalProgressNum
    rw [if_pos hq]
  · intro q hq0 hq
    rw [hbase]
    unfold GoalService.updateGoalProgressNum
    rw [if_neg (not_lt.mpr hq0), if_neg (by simp [hid]), hfind]
    show GoalService.updateGoalProgressFound st gid q now ex =
      Except.error "Current amount cannot exceed target amount"
    unfold GoalService.updateGoalProgressFound
    have : GoalService.jsGtVal (GoalService.GVal.num q)
        ((GoalService.getField ex "target_amount").getD GoalService.GVal.jsNull) = true := by
      rw [htgt]
      simp only [Option.getD_some, GoalService.jsGtVal, decide_eq_true_eq]
      exact hq
    rw [if_pos this]
  · intro q hq0 hq
    have hstep : GoalService.updateGoalProgressNum st gid q now =
        GoalService.updateGoalProgressFound st gid q now ex := by
      unfold GoalService.updateGoalProgressNum
      rw [if_neg (not_lt.mpr hq0), if_neg (by simp [hid]), hfind]
    have hngt : GoalService.jsGtVal (GoalService.GVal.num q)
        ((GoalService.getField ex "target_amount").getD GoalService.GVal.jsNull) = false := by
      rw [htgt]
      simp only [Option.getD_some, GoalService.jsGtVal, decide_eq_false_iff_not, not_lt]
      exact hq
    refine ⟨{ st with goals := (st.goals.map fun g => if g.1 = gid then
          (g.1, GoalService.setFields ex [("current_amount", GoalService.GVal.num q),
            ("updated_at", GoalService.GVal.time now)]) else g) },
      GoalService.setFields ex [("current_amount", GoalService.GVal.num q),
        ("updated_at", GoalService.GVal.time now)], ?_, ?_, ?_, ?_, ?_, ?_⟩
    · rw [hbase, hstep]
      unfold GoalService.updateGoalProgressFound
      rw [if_neg (by simp [hngt])]
    · exact getField_setFields_mem _ _ (by simp) (by simp)
    · exact getField_setFields_mem _ _ (by simp) (by simp)
    · intro k hk1 hk2
      apply getField_setFields_not_mem _ ex
      intro kv hkv
      simp only [List.mem_cons, List.mem_singleton, List.not_mem_nil, or_false] at hkv
      rcases hkv with rfl | rfl
      · exact fun he => hk1 he.symm
      · exact fun he => hk2 he.symm
    · intro g hg hgne
      exact List.mem_map.mpr ⟨g, hg, by simp [hgne]⟩
    · have hcq : GoalService.getField (GoalService.setFields ex
          [("current_amount", GoalService.GVal.num q),
           ("updated_at", GoalService.GVal.time now)]) "current_amount" =
          some (GoalService.GVal.num q) :=
        getField_setFields_mem _ _ (by simp) (by simp)
      have htq : GoalService.getField (GoalService.setFields ex
          [("current_amount", GoalService.GVal.num q),
           ("updated_at", GoalService.GVal.time now)]) "target_amount" =
          some (GoalService.GVal.num T) := by
        rw [getField_setFields_not_mem ?_ ex]
        · exact htgt
        intro kv hkv
        simp only [List.mem_cons, List.mem_singleton, List.not_mem_nil, or_false] at hkv
        rcases hkv with rfl | rfl <;> simp
      unfold GoalService.goalProgressPercentage
      rw [hcq, htq]
      show (if T = 0 then none else some (GoalService.progressPercentage q T)) =
        some (GoalService.progressPercentage q T)
      rw [if_neg (by intro h0; rw [h0] at hT; exact lt_irrefl 0 hT)]

/-- Witness for C7 at the concrete goal `goalDocA` (target 1000): the
progress update to exactly the target succeeds and recomputes 100%. -/
theorem claim_c7_witness :
    ∃ st' doc', GoalService.updateGoalProgress gstateA gidA (GoalService.GVal.num 1000) 9 =
        Except.ok (st', doc') ∧
      GoalService.getField doc' "current_amount" = some (GoalService.GVal.num 1000) ∧
      GoalService.getField doc' "updated_at" = some (GoalService.GVal.time 9) ∧
      (∀ k, k ≠ "current_amount" → k ≠ "updated_at" →
        GoalService.getField doc' k = GoalService.getField goalDocA k) ∧
      (∀ g ∈ gstateA.goals, g.1 ≠ gidA → g ∈ st'.goals) ∧
      GoalService.goalProgressPercentage doc' =
        some (GoalService.progressPercentage 1000 1000) :=
  (claim_c7_progress_update gstateA gidA 9 goalDocA 1000 rfl rfl (by norm_num) rfl).2.2.2
    1000 (by norm_num) (by norm_num)

/-- Counterexample to claim C10: the patch value of `parent_goal_id` is NOT
written verbatim — `updateGoal` converts a truthy parent id string to an
ObjectId before the `$set` (source lines 318-321). The accepted patch
`{parent_goal_id: gidB}` stores `oid gidB`, not the string `gidB` it
carried. -/
theorem claim_c10_counterexample :
    GoalService.updateGoal gstateAB gidA
      [("parent_goal_id", GoalService.GVal.str gidB)] 3 =
      Except.ok ({ users := [uidA], goals := [(gidA, goalDocA_withParent), (gidB, goalDocB)] },
        goalDocA_withParent)
    ∧ GoalService.getField goalDocA_withParent "parent_goal_id" =
        some (GoalService.GVal.oid gidB)
    ∧ GoalService.GVal.oid gidB ≠ GoalService.GVal.str gidB :=
  ⟨rfl, rfl, by simp⟩

/-- Claim C10 amended: for every accepted `updateGoal` patch, every key of
the patch other than `parent_goal_id` and `updated_at` is written to the
stored record with its patched value verbatim (keys outside the goal
schema included); `updated_at` is overwritten with a fresh timestamp; a
truthy `parent_goal_id` is stored as the ObjectId built from the given
string; and only title, coin, coin_symbol, current_amount, target_amount,
goal_type and parent_goal_id are validated — a patch touching none of them
is always accepted on an existing goal, whatever its values. -/
theorem claim_c10_amended_write_through :
    (∀ st gid updates now st' doc' k v,
      (updates.map Prod.fst).Nodup →
      GoalService.updateGoal st gid updates now = Except.ok (st', doc') →
      (k, v) ∈ updates → k ≠ "parent_goal_id" → k ≠ "updated_at" →
      GoalService.getField doc' k = some v)
    ∧ (∀ st gid updates now st' doc',
      GoalService.updateGoal st gid updates now = Except.ok (st', doc') →
      GoalService.getField doc' "updated_at" = some (GoalService.GVal.time now))
    ∧ (∀ st gid updates now st' doc' v,
      (updates.map Prod.fst).Nodup →
      GoalService.updateGoal st gid updates now = Except.ok (st', doc') →
      ("parent_goal_id", v) ∈ updates → v.truthy = true →
      GoalService.getField doc' "parent_goal_id" =
        some (GoalService.GVal.oid v.idString))
    ∧ (∀ st gid updates now ex,
      isValidObjectIdString gid = true →
      GoalService.findGoal st gid = some ex →
      (∀ kv ∈ updates, kv.1 ∉ (["title", "coin", "coin_symbol", "current_amount",
          "target_amount", "goal_type", "parent_goal_id"] : List String)) →
      ∃ st' doc', GoalService.updateGoal st gid updates now = Except.ok (st', doc')) := by
  refine ⟨?_, ?_, ?_, ?_⟩
  · intro st gid updates now st' doc' k v hnd h hmem hk2 hk1
    obtain ⟨ex, -, hdoc⟩ := updateGoal_ok_inversion h
    rw [hdoc]
    exact getField_setFields_mem _ _ (buildUpdateData_keys_nodup hnd now)
      (buildUpdateData_mem hmem hk1 hk2 now)
  · intro st gid updates now st' doc' h
    obtain ⟨ex, -, hdoc⟩ := updateGoal_ok_inversion h
    rw [hdoc, buildUpdateData_split]
    exact getField_setFields_last ex _ _ _
  · intro st gid updates now st' doc' v hnd h hmem htr
    obtain ⟨ex, -, hdoc⟩ := updateGoal_ok_inversion h
    rw [hdoc]
    exact getField_setFields_mem _ _ (buildUpdateData_keys_nodup hnd now)
      (buildUpdateData_parent_mem hmem htr now)
  · intro st gid updates now ex hid hfind habs
    have hchk := updateGoalFieldChecks_ok_of_none habs
    have hpf : GoalService.patchField updates "parent_goal_id" = none :=
      getField_eq_none (fun kv hkv hke => habs kv hkv (by rw [hke]; simp))
    refine ⟨{ st with goals := (st.goals.map fun g => if g.1 = gid then
          (g.1, GoalService.setFields ex (GoalService.buildUpdateData updates now)) else g) },
      GoalService.setFields ex (GoalService.buildUpdateData updates now), ?_⟩
    unfold GoalService.updateGoal
    rw [if_neg (by simp [hid]), hfind]
    show GoalService.updateGoalFound st gid updates now ex = _
    unfold GoalService.updateGoalFound
    rw [hchk]
    show GoalService.updateGoalChecked st gid updates now ex = _
    unfold GoalService.updateGoalChecked
    rw [if_neg (by simp [hpf])]

theorem addressStep_some_ok {a ch : String} {x : Option String}
    (h : WalletService.addressStep (some a) ch = Except.ok x) :
    WalletService.validateAddressByChain (jsTrim (jsToLower a)) ch = none ∧
    x = some (jsTrim (jsToLower a)) := by
  have h2 : (if jsTrim (jsToLower a) = "" then
      (Except.error "Wallet address cannot be empty" : Except String (Option String))
    else match WalletService.validateAddressByChain (jsTrim (jsToLower a)) ch with
      | some e => Except.error e
      | none => Except.ok (some (jsTrim (jsToLower a)))) = Except.ok x := h
  clear h
  rename' h2 => h
  split_ifs at h with hne
  all_goals try exact Except.noConfusion h
  cases hv : WalletService.validateAddressByChain (jsTrim (jsToLower a)) ch <;> rw [hv] at h
  · injection h with hx
    exact ⟨rfl, hx.symm⟩
  · exact Except.noConfusion h

theorem chainStep_some_ok {c addr : String} {x : Option String}
    (h : WalletService.chainStep (some c) addr = Except.ok x) :
    WalletService.supportedChains.contains (jsTrim (jsToLower c)) = true ∧
    WalletService.validateAddressByChain addr (jsTrim (jsToLower c)) = none ∧
    x = some (jsTrim (jsToLower c)) := by
  have h2 : (if ¬ WalletService.supportedChains.contains (jsTrim (jsToLower c)) = true then
      (Except.error WalletService.unsupportedChainsError : Except String (Option String))
    else match WalletService.validateAddressByChain addr (jsTrim (jsToLower c)) with
      | some e => Except.error e
      | none => Except.ok (some (jsTrim (jsToLower c)))) = Except.ok x := h
  clear h
  rename' h2 => h
  split_ifs at h with hns
  all_goals try exact Except.noConfusion h
  cases hv : WalletService.validateAddressByChain addr (jsTrim (jsToLower c)) <;> rw [hv] at h
  · injection h with hx
    exact ⟨by simpa using hns, rfl, hx.symm⟩
  · exact Except.noConfusion h

theorem updateWallet_ok_inversion {st : WalletService.WalletState} {walletId : String}
    {u : WalletService.WalletUpdates} {now : Nat} {st' : WalletService.WalletState}
    {w : WalletService.WalletDoc}
    (h : WalletService.updateWallet st walletId u now = Except.ok (st', w)) :
    isValidObjectIdString walletId = true ∧
    ∃ ex newLabel? newAddress? newChain?,
      WalletService.findWalletDoc st walletId = some ex ∧
      WalletService.labelStep u.label = Except.ok newLabel? ∧
      WalletService.addressStep u.address ex.chain = Except.ok newAddress? ∧
      WalletService.chainStep u.chain ex.address = Except.ok newChain? ∧
      WalletService.updateDupCheck st walletId ex u = false ∧
      w = { ex with
        label := newLabel?.getD ex.label
        address := newAddress?.getD ex.address
        chain := newChain?.getD ex.chain
        updated_at := some now } := by
  unfold WalletService.updateWallet at h
  split_ifs at h with hid
  all_goals try exact Except.noConfusion h
  cases hfind : WalletService.findWalletDoc st walletId <;> rw [hfind] at h
  · exact Except.noConfusion h
  rename_i ex
  refine ⟨by simpa using hid, ex, ?_⟩
  have h2 : WalletService.updateWalletFound st walletId u now ex = Except.ok (st', w) := h
  unfold WalletService.updateWalletFound at h2
  cases hl : WalletService.labelStep u.label <;> rw [hl] at h2
  · exact Except.noConfusion h2
  rename_i nl
  cases ha : WalletService.addressStep u.address ex.chain <;> rw [ha] at h2
  · exact Except.noConfusion h2
  rename_i na
  cases hc : WalletService.chainStep u.chain ex.address <;> rw [hc] at h2
  · exact Except.noConfusion h2
  rename_i nc
  have h3 : WalletService.updateWalletChecked st walletId u now ex nl na nc =
      Except.ok (st', w) := h2
  unfold WalletService.updateWalletChecked at h3
  split_ifs at h3 with hdup
  all_goals try exact Except.noConfusion h3
  injection h3 with hpair
  injection hpair with hst hdoc
  exact ⟨nl, na, nc, rfl, rfl, rfl, rfl, by simpa using hdup, hdoc.symm⟩

theorem validateWalletData_ok_parts {p : WalletService.WalletPayload}
    (h : WalletService.validateWalletData p = Except.ok []) :
    ∃ l a c, p.label = some l ∧ p.address = some a ∧ p.chain = some c ∧
      jsTrim l ≠ "" ∧ jsTrim a ≠ "" ∧ jsTrim c ≠ "" ∧
      WalletService.supportedChains.contains (jsToLower c) = true ∧
      WalletService.validateAddressByChain a c = none := by
  obtain ⟨uid, lab, addr, ch⟩ := p
  rcases lab with _ | l <;> rcases addr with _ | a <;> rcases ch with _ | c <;>
    try exact Except.noConfusion h
  case mk.none.none.some =>
    exfalso
    have h2 : ("Wallet label is required" :: ["Wallet address is required"] ++
        (if jsTrim c = "" then ["Blockchain chain is required"] else []) ++
        (if WalletService.supportedChains.contains (jsToLower c) then []
          else [WalletService.unsupportedChainsError]) ++ ([] : List String)) = [] := by
      injection h with hx
      try exact hx
    exact List.noConfusion h2
  case mk.none.some.some =>
    exfalso
    have h2 : ("Wallet label is required" ::
        (if jsTrim a = "" then ["Wallet address is required"] else []) ++
        (if jsTrim c = "" then ["Blockchain chain is required"] else []) ++
        (if WalletService.supportedChains.contains (jsToLower c) then []
          else [WalletService.unsupportedChainsError]) ++
        (if a ≠ "" ∧ c ≠ "" then
          (match WalletService.validateAddressByChain a c with
            | some e => [e]
            | none => []) else [])) = [] := by
      injection h with hx
      try exact hx
    exact List.noConfusion h2
  case mk.some.none.some =>
    exfalso
    have h2 : ((if jsTrim l = "" then ["Wallet label is required"] else []) ++
        ["Wallet address is required"] ++
        (if jsTrim c = "" then ["Blockchain chain is required"] else []) ++
        (if WalletService.supportedChains.contains (jsToLower c) then []
          else [WalletService.unsupportedChainsError]) ++ ([] : List String)) = [] := by
      injection h with hx
      try exact hx
    simp only [List.append_eq_nil] at h2
    exact List.noConfusion h2.1.1.1.2
  -- all three fields present
  have h2 : ((if jsTrim l = "" then ["Wallet label is required"] else []) ++
      (if jsTrim a = "" then ["Wallet address is required"] else []) ++
      (if jsTrim c = "" then ["Blockchain chain is required"] else []) ++
      (if WalletService.supportedChains.contains (jsToLower c) then []
        else [WalletService.unsupportedChainsError]) ++
      (if a ≠ "" ∧ c ≠ "" then
        (match WalletService.validateAddressByChain a c with
          | some e => [e]
          | none => []) else [])) = [] := by
    injection h with hx
    try exact hx
  simp only [List.append_eq_nil] at h2
  obtain ⟨⟨⟨⟨hl, ha⟩, hc⟩, hs⟩, hf⟩ := h2
  have hltrim : jsTrim l ≠ "" := by
    intro hx
    rw [if_pos hx] at hl
    exact List.noConfusion hl
  have hatrim : jsTrim a ≠ "" := by
    intro hx
    rw [if_pos hx] at ha
    exact List.noConfusion ha
  have hctrim : jsTrim c ≠ "" := by
    intro hx
    rw [if_pos hx] at hc
    exact List.noConfusion hc
  have hsupp : WalletService.supportedChains.contains (jsToLower c) = true := by
    by_contra hx
    rw [if_neg (by simpa using hx)] at hs
    exact List.noConfusion hs
  have hane : a ≠ "" := fun hx => hatrim (by rw [hx]; rfl)
  have hcne : c ≠ "" := fun hx => hctrim (by rw [hx]; rfl)
  have hval : WalletService.validateAddressByChain a c = none := by
    rw [if_pos ⟨hane, hcne⟩] at hf
    cases hv : WalletService.validateAddressByChain a c <;> rw [hv] at hf
    all_goals first | rfl | exact List.noConfusion hf
  exact ⟨l, a, c, rfl, rfl, rfl, hltrim, hatrim, hctrim, hsupp, hval⟩

theorem trim_lower_chain_eq {c : String}
    (hsupp : WalletService.supportedChains.contains (jsToLower c) = true) :
    jsTrim (jsToLower c) = jsToLower c := by
  have hmem : jsToLower c ∈ WalletService.supportedChains := by simpa using hsupp
  simp only [WalletService.supportedChains, List.mem_cons, List.mem_singleton,
    List.not_mem_nil, or_false] at hmem
  rcases hmem with h | h | h | h | h | h | h | h | h <;> rw [h] <;> rfl

theorem trim_lower_addr_eq {a c : String}
    (hsupp : WalletService.supportedChains.contains (jsToLower c) = true)
    (hval : WalletService.validateAddressByChain a c = none) :
    jsTrim (jsToLower a) = jsToLower a := by
  have hmem : jsToLower c ∈ WalletService.supportedChains := by simpa using hsupp
  simp only [WalletService.supportedChains, List.mem_cons, List.mem_singleton,
    List.not_mem_nil, or_false] at hmem
  apply jsTrim_jsToLower_eq_of_bounds
  rcases hmem with h | h | h | h | h | h | h | h | h
  · -- ethereum
    have heq : WalletService.validateAddressByChain a c =
        (if matchesEthereumAddress a then none
          else some "Invalid Ethereum address format (should be 0x followed by 40 hex characters)") := by
      unfold WalletService.validateAddressByChain
      rw [h]
      rfl
    rw [heq] at hval
    exact bounds_of_matches0xHex ((option_ite_eq_none_iff _ _).mp hval)
  · -- bitcoin
    have heq : WalletService.validateAddressByChain a c =
        (if matchesBitcoinLegacy a || matchesBitcoinBech32 a then none
          else some "Invalid Bitcoin address format") := by
      unfold WalletService.validateAddressByChain
      rw [h]
      rfl
    rw [heq] at hval
    have hm := (option_ite_eq_none_iff _ _).mp hval
    rw [Bool.or_eq_true] at hm
    rcases hm with hm | hm
    · exact bounds_of_matchesBitcoinLegacy hm
    · exact bounds_of_matchesBitcoinBech32 hm
  · -- solana
    have heq : WalletService.validateAddressByChain a c =
        (if matchesSolanaAddress a then none else some "Invalid Solana address format") := by
      unfold WalletService.validateAddressByChain
      rw [h]
      rfl
    rw [heq] at hval
    exact bounds_of_matchesSolanaAddress ((option_ite_eq_none_iff _ _).mp hval)
  · -- sui
    have heq : WalletService.validateAddressByChain a c =
        (if matches0x64Hex a then none
          else some "Invalid SUI address format (should be 0x followed by 64 hex characters)") := by
      unfold WalletService.validateAddressByChain
      rw [h]
      rfl
    rw [heq] at hval
    exact bounds_of_matches0xHex ((option_ite_eq_none_iff _ _).mp hval)
  · -- aptos
    have heq : WalletService.validateAddressByChain a c =
        (if matches0x64Hex a then none
          else some "Invalid Aptos address format (should be 0x followed by 64 hex characters)") := by
      unfold WalletService.validateAddressByChain
      rw [h]
      rfl
    rw [heq] at hval
    exact bounds_of_matches0xHex ((option_ite_eq_none_iff _ _).mp hval)
  · -- polygon
    have heq : WalletService.validateAddressByChain a c =
        (if matchesEthereumAddress a then none
          else some "Invalid Ethereum address format (should be 0x followed by 40 hex characters)") := by
      unfold WalletService.validateAddressByChain
      rw [h]
      rfl
    rw [heq] at hval
    exact bounds_of_matches0xHex ((option_ite_eq_none_iff _ _).mp hval)
  · -- arbitrum
    have heq : WalletService.validateAddressByChain a c =
        (if matchesEthereumAddress a then none
          else some "Invalid Ethereum address format (should be 0x followed by 40 hex characters)") := by
      unfold WalletService.validateAddressByChain
      rw [h]
      rfl
    rw [heq] at hval
    exact bounds_of_matches0xHex ((option_ite_eq_none_iff _ _).mp hval)
  · -- optimism
    have heq : WalletService.validateAddressByChain a c =
        (if matchesEthereumAddress a then none
          else some "Invalid Ethereum address format (should be 0x followed by 40 hex characters)") := by
      unfold WalletService.validateAddressByChain
      rw [h]
      rfl
    rw [heq] at hval
    exact bounds_of_matches0xHex ((option_ite_eq_none_iff _ _).mp hval)
  · -- base
    have heq : WalletService.validateAddressByChain a c =
        (if matchesEthereumAddress a then none
          else some "Invalid Ethereum address format (should be 0x followed by 40 hex characters)") := by
      unfold WalletService.validateAddressByChain
      rw [h]
      rfl
    rw [heq] at hval
    exact bounds_of_matches0xHex ((option_ite_eq_none_iff _ _).mp hval)

theorem createWallet_ok_inversion {st : WalletService.WalletState}
    {p : WalletService.WalletPayload} {now : Nat} {newId : String}
    {st' : WalletService.WalletState} {w : WalletService.WalletDoc}
    (h : WalletService.createWallet st p now newId = Except.ok (st', w)) :
    WalletService.validateWalletData p = Except.ok [] ∧
    isValidObjectIdString p.user_id = true ∧
    st.users.contains p.user_id = true ∧
    w = { id := newId, userId := p.user_id, user_id := none,
          address := jsTrim (jsToLower (p.address.getD "")),
          label := jsTrim (p.label.getD ""),
          chain := jsTrim (jsToLower (p.chain.getD "")),
          createdAt := now, updatedAt := now, updated_at := none } ∧
    st' = { st with wallets := w :: st.wallets } := by
  have h2 : (match WalletService.validateWalletData p with
    | Except.error _ => Except.error "TypeError: chain is undefined"
    | Except.ok errs => WalletService.createWalletChecked st p now newId errs) =
      Except.ok (st', w) := h
  clear h
  cases hv : WalletService.validateWalletData p <;> rw [hv] at h2
  · exact Except.noConfusion h2
  rename_i errs
  have h3 : WalletService.createWalletChecked st p now newId errs = Except.ok (st', w) := h2
  clear h2
  unfold WalletService.createWalletChecked at h3
  split_ifs at h3 with g1 g2 g3 g4
  all_goals try exact Except.noConfusion h3
  have herrs : errs = [] := not_not.mp g1
  injection h3 with hpair
  injection hpair with hst hdoc
  subst hdoc
  refine ⟨?_, g2, g3, rfl, hst.symm⟩
  rw [herrs]

/-- C4: wallet uniqueness on create. A second creation request for the same
user whose address and chain agree with an already-created wallet up to
letter case fails with the duplicate error (and, the result being an error,
nothing is inserted); the same address on a different supported chain, and
the same address and chain for a different existing user, both succeed. -/
theorem claim_c4_create_duplicate_uniqueness :
    (∀ (st st₁ : WalletService.WalletState) (p q : WalletService.WalletPayload)
        (now now' : Nat) (newId newId' : String) (w : WalletService.WalletDoc),
        WalletService.createWallet st p now newId = Except.ok (st₁, w) →
        WalletService.validateWalletData q = Except.ok [] →
        q.user_id = p.user_id →
        jsToLower (q.address.getD "") = jsToLower (p.address.getD "") →
        jsToLower (q.chain.getD "") = jsToLower (p.chain.getD "") →
        WalletService.createWallet st₁ q now' newId' =
          Except.error "Wallet with this address and chain already exists for this user") ∧
    (∃ st₁ w₁ st₂ w₂,
      WalletService.createWallet wstate0 walletPayloadA 0 widA = Except.ok (st₁, w₁) ∧
      WalletService.createWallet st₁ walletPayloadAPoly 1 widB = Except.ok (st₂, w₂)) ∧
    (∃ st₁ w₁ st₂ w₂,
      WalletService.createWallet wstate0 walletPayloadA 0 widA = Except.ok (st₁, w₁) ∧
      WalletService.createWallet st₁ walletPayloadB 1 widB = Except.ok (st₂, w₂)) := by
  refine ⟨?_, ⟨_, _, _, _, rfl, rfl⟩, ⟨_, _, _, _, rfl, rfl⟩⟩
  intro st st₁ p q now now' newId newId' w h hq hqu hqa hqc
  obtain ⟨hv, hoid, husr, hw, hst⟩ := createWallet_ok_inversion h
  obtain ⟨l, a, c, hpl, hpa, hpc, hlt, hat, hct, hsupp, hval⟩ := validateWalletData_ok_parts hv
  have hta : jsTrim (jsToLower a) = jsToLower a := trim_lower_addr_eq hsupp hval
  have htc : jsTrim (jsToLower c) = jsToLower c := trim_lower_chain_eq hsupp
  unfold WalletService.createWallet
  rw [hq]
  show WalletService.createWalletChecked st₁ q now' newId' [] =
    Except.error "Wallet with this address and chain already exists for this user"
  unfold WalletService.createWalletChecked
  have c1 : ¬(([] : List String) ≠ []) := fun hx => hx rfl
  rw [if_neg c1]
  have c2 : ¬¬(isValidObjectIdString q.user_id = true) :=
    not_not_intro (by rw [hqu]; exact hoid)
  rw [if_neg c2]
  have c3 : ¬¬(st₁.users.contains q.user_id = true) :=
    not_not_intro (by rw [hqu, hst]; exact husr)
  rw [if_neg c3]
  have c4 : st₁.wallets.any (fun w0 =>
      w0.userId = q.user_id ∧ w0.address = jsToLower (q.address.getD "") ∧
      w0.chain = jsToLower (q.chain.getD "")) = true := by
    rw [hst]
    show (w :: st.wallets).any _ = true
    refine List.any_eq_true.mpr ⟨w, List.mem_cons_self _ _, ?_⟩
    simp only [decide_eq_true_eq]
    refine ⟨?_, ?_, ?_⟩
    · rw [hw, hqu]
    · rw [hw, hqa, hpa]
      exact hta
    · rw [hw, hqc, hpc]
      exact htc
  rw [if_pos c4]

/-- C2 (amended): in `updateWallet`, a patch address is always validated
against the wallet's EXISTING chain and a patch chain always against the
wallet's EXISTING address, even when both fields are present; any field
failure aborts with that error before the write; and the final post-patch
pair is never validated together — an update can succeed whose resulting
(address, chain) pair the validator rejects. -/
theorem claim_c2_amended_update_validation :
    (∀ (st : WalletService.WalletState) (walletId : String)
        (u : WalletService.WalletUpdates) (now : Nat)
        (st' : WalletService.WalletState) (w : WalletService.WalletDoc),
        WalletService.updateWallet st walletId u now = Except.ok (st', w) →
        ∃ ex, WalletService.findWalletDoc st walletId = some ex ∧
          (∀ a, u.address = some a →
            WalletService.validateAddressByChain (jsTrim (jsToLower a)) ex.chain = none) ∧
          (∀ c, u.chain = some c →
            WalletService.supportedChains.contains (jsTrim (jsToLower c)) = true ∧
            WalletService.validateAddressByChain ex.address (jsTrim (jsToLower c)) = none)) ∧
    (∀ (st : WalletService.WalletState) (walletId : String)
        (u : WalletService.WalletUpdates) (now : Nat)
        (ex : WalletService.WalletDoc) (e : String),
        isValidObjectIdString walletId = true →
        WalletService.findWalletDoc st walletId = some ex →
        u.label = none →
        WalletService.addressStep u.address ex.chain = Except.error e →
        WalletService.updateWallet st walletId u now = Except.error e) ∧
    (∃ st' w, WalletService.updateWallet wstateBtc widA
        { label := none, address := some legacyBtcAddrA, chain := some "solana" } 2 =
        Except.ok (st', w) ∧
      WalletService.validateAddressByChain w.address w.chain =
        some "Invalid Solana address format") := by
  refine ⟨?_, ?_, ⟨_, _, rfl, rfl⟩⟩
  · intro st walletId u now st' w h
    obtain ⟨hid, ex, nl, na, nc, hfind, hl, ha, hc, hdup, hw⟩ := updateWallet_ok_inversion h
    refine ⟨ex, hfind, ?_, ?_⟩
    · intro a haddr
      rw [haddr] at ha
      exact (addressStep_some_ok ha).1
    · intro c hchain
      rw [hchain] at hc
      exact ⟨(chainStep_some_ok hc).1, (chainStep_some_ok hc).2.1⟩
  · intro st walletId u now ex e hid hfind hlab haddr
    unfold WalletService.updateWallet
    rw [if_neg (not_not_intro hid), hfind]
    show WalletService.updateWalletFound st walletId u now ex = Except.error e
    unfold WalletService.updateWalletFound
    rw [hlab, haddr]
    rfl
